import Mathlib

/-!
# l2wfd packet filter: rule tables and batch classification

A shallow embedding of `src/l2wfd/filter_rules.c`.

Conventions of the embedding.

* A `char *` that may be `NULL` is an `Option String`; `none` is `NULL`.
* A function whose C execution would dereference `NULL` (or read past an
  array) returns `none`; `some r` is a normal return with result `r`.
* The current-table slot `filter_rules` (a `filter_rule_t **`, `NULL` or a
  `NULL`-terminated array of rule pointers) is an `Option (List filter_rule_t)`.
* A batch `pkts[0 .. nb_pkts-1]` is a `List rte_mbuf`; `nb_pkts` is its length.
* An `rte_be32_t` is the number whose big-endian bytes are the bytes in memory,
  on both sides of every comparison.
* Functions of libc, DPDK and jansson are not part of the repository.  The two
  text parsers are parameters (`Lib`); the others are modelled from their
  documentation, next to the code that calls them.
-/

namespace L2wfd

/-! ## Texts -/

/-- Search of `needle` in the characters of a text: `true` when libc `strstr`
returns a non-`NULL` pointer. -/
def strstr_list : List Char → List Char → Bool
  | [], needle => needle.isEmpty
  | c :: cs, needle => needle.isPrefixOf (c :: cs) || strstr_list cs needle

/-- The test `strstr(hay, needle) != NULL` on two non-`NULL` texts. -/
def strstr (hay needle : String) : Bool :=
  strstr_list hay.data needle.data

/-! ## Data model -/

/-- The six bytes of `struct rte_ether_addr` (`addr_bytes[0..5]`). -/
structure rte_ether_addr where
  b0 : Nat
  b1 : Nat
  b2 : Nat
  b3 : Nat
  b4 : Nat
  b5 : Nat
deriving DecidableEq, Repr

/-- The address left by `memset(&rule->mac_addr, 0, ...)` and by `calloc`. -/
def zero_ether_addr : rte_ether_addr := ⟨0, 0, 0, 0, 0, 0⟩

/-- The record `filter_rule_t` of `filter_rules.c`. -/
structure filter_rule_t where
  action : Option String
  field : Option String
  value : Option String
  mac_addr : rte_ether_addr
  ipv4 : Nat
deriving DecidableEq, Repr

/-- What the classifier reads of one `struct rte_mbuf`: its `packet_type`, the
Ethernet header at the start of the data (`rte_pktmbuf_mtod`), and the
`dst_addr` of the IPv4 header that follows it (`eth_hdr + 1`). -/
structure rte_mbuf where
  packet_type : Nat
  eth_dst : rte_ether_addr
  eth_src : rte_ether_addr
  ether_type : Nat
  ipv4_dst : Nat
deriving DecidableEq, Repr

/-- DPDK constant `RTE_PTYPE_L3_IPV4`. -/
def RTE_PTYPE_L3_IPV4 : Nat := 0x10

/-- DPDK macro `RTE_ETH_IS_IPV4_HDR(ptype)`, which is `(ptype) & RTE_PTYPE_L3_IPV4`,
used as a condition. -/
def RTE_ETH_IS_IPV4_HDR (ptype : Nat) : Bool :=
  Nat.land ptype RTE_PTYPE_L3_IPV4 != 0

/-- DPDK `rte_is_same_ether_addr`: all six bytes equal. -/
def rte_is_same_ether_addr (a b : rte_ether_addr) : Bool :=
  decide (a = b)

/-! ## Classification: `filter_pckts_cb` -/

/-- The two locals of `filter_pckts_cb` that change during a call: `nb_pkts`,
and the log of the calls `rte_pktmbuf_free_bulk(pkts, nb_pkts)` made so far, each
entry being the packets that call released. -/
structure cb_state where
  nb_pkts : Nat
  freed : List (List rte_mbuf)
deriving DecidableEq, Repr

/-- The statements `rte_pktmbuf_free_bulk(pkts, nb_pkts); nb_pkts = 0;`. -/
def free_batch (pkts : List rte_mbuf) (st : cb_state) : cb_state :=
  { nb_pkts := 0, freed := st.freed ++ [pkts.take st.nb_pkts] }

/-- Body of the inner loop of `filter_pckts_cb` (lines 277-299) for the packet
`mbuf = pkts[i]`. -/
def pkt_body (rule : filter_rule_t) (pkts : List rte_mbuf) (mbuf : rte_mbuf)
    (st : cb_state) : Option cb_state :=
  match rule.field with
  | none => none
  | some field =>
    if strstr field "ip_dst" then
      if RTE_ETH_IS_IPV4_HDR mbuf.packet_type then
        if mbuf.ipv4_dst = rule.ipv4 then some (free_batch pkts st) else some st
      else some st
    else if strstr field "mac_src" then
      if rte_is_same_ether_addr rule.mac_addr mbuf.eth_dst then some (free_batch pkts st)
      else some st
    else some st

/-- The inner loop `for (uint16_t i = 0; i < nb_pkts; i++)` of `filter_pckts_cb`,
entered at index `i` with the packets `pkts[i], pkts[i+1], ...` still ahead.  The
bound `nb_pkts` is read again at every iteration, as in the source. -/
def pkt_loop (rule : filter_rule_t) (pkts : List rte_mbuf) :
    List rte_mbuf → Nat → cb_state → Option cb_state
  | [], i, st => if i < st.nb_pkts then none else some st
  | mbuf :: rest, i, st =>
    if i < st.nb_pkts then
      match pkt_body rule pkts mbuf st with
      | none => none
      | some st1 => pkt_loop rule pkts rest (i + 1) st1
    else some st

/-- The outer loop `for (int i = 0; rules[i] != NULL; i++)` of `filter_pckts_cb`. -/
def rule_loop (pkts : List rte_mbuf) : List filter_rule_t → cb_state → Option cb_state
  | [], st => some st
  | rule :: rest, st =>
    match rule.action with
    | none => none
    | some action =>
      if strstr action "drop" then
        match pkt_loop rule pkts pkts 0 st with
        | none => none
        | some st1 => rule_loop pkts rest st1
      else rule_loop pkts rest st

/-- The callback `filter_pckts_cb`, run on its own (the spin lock is taken and
released around the scan; see the interleaving model below).  The result holds
the returned `nb_pkts` and the log of the bulk releases. -/
def filter_pckts_cb (filter_rules : Option (List filter_rule_t))
    (pkts : List rte_mbuf) : Option cb_state :=
  match filter_rules with
  | none => none
  | some rules => rule_loop pkts rules { nb_pkts := pkts.length, freed := [] }

/-- Whether `rule` is a drop rule that matches packet `p`: the action text holds
"drop", and either the field text holds "ip_dst", `p` is identified as IPv4 and its
destination address is `rule.ipv4`, or the field text holds "mac_src" (and not
"ip_dst") and the Ethernet destination address of `p` is `rule.mac_addr`. -/
def rule_matches (rule : filter_rule_t) (p : rte_mbuf) : Bool :=
  match rule.action, rule.field with
  | some action, some field =>
    strstr action "drop" &&
      ((strstr field "ip_dst" && RTE_ETH_IS_IPV4_HDR p.packet_type
          && decide (p.ipv4_dst = rule.ipv4))
        || (!strstr field "ip_dst" && strstr field "mac_src"
          && decide (p.eth_dst = rule.mac_addr)))
  | _, _ => false

/-- Every rule of the table has an action text and a field text. -/
def texts_present (rules : List filter_rule_t) : Prop :=
  ∀ r ∈ rules, r.action ≠ none ∧ r.field ≠ none

/-! ## Rule compilation: `prepare_filter_actions` -/

/-- The two text parsers the compiler calls, which are library code:
`inet_aton` of libc (`some a` when it returns non-zero and stores `s_addr = a`,
`none` when it returns 0) and `rte_ether_unformat_addr` of DPDK (`some m` when it
returns 0 and stores `m`, `none` when it returns a negative value).  Both are
called on a non-`NULL` text. -/
structure Lib where
  inet_aton : String → Option Nat
  rte_ether_unformat_addr : String → Option rte_ether_addr

/-- Body of the loop of `prepare_filter_actions` for one rule (lines 73-97). -/
def prepare_rule (lib : Lib) (rule : filter_rule_t) : Option filter_rule_t :=
  match rule.field with
  | none => none
  | some field =>
    if strstr field "ip_dst" then
      match rule.value with
      | none => none
      | some value =>
        match lib.inet_aton value with
        | none => some { rule with ipv4 := 0 }
        | some s_addr => some { rule with ipv4 := s_addr }
    else if strstr field "mac_src" then
      match rule.value with
      | none => none
      | some value =>
        match lib.rte_ether_unformat_addr value with
        | none => some { rule with mac_addr := zero_ether_addr }
        | some m => some { rule with mac_addr := m }
    else some rule

/-- The loop `for (int i = 0; rules[i] != NULL; i++)` of `prepare_filter_actions`;
the result is the array after the in-place updates. -/
def prepare_filter_actions (lib : Lib) : List filter_rule_t → Option (List filter_rule_t)
  | [] => some []
  | rule :: rest =>
    match prepare_rule lib rule with
    | none => none
    | some rule1 =>
      match prepare_filter_actions lib rest with
      | none => none
      | some rest1 => some (rule1 :: rest1)

/-! ## Decoded payload (jansson values) -/

/-- A decoded JSON value (`json_t`).  An object keeps its members as a list of
key and value, each key once. -/
inductive json_t where
  | null : json_t
  | jtrue : json_t
  | jfalse : json_t
  | integer : Int → json_t
  | real : String → json_t
  | string : String → json_t
  | array : List json_t → json_t
  | object : List (String × json_t) → json_t

/-- The elements `json_array_foreach` visits: those of an array, none otherwise. -/
def json_array_items : json_t → List json_t
  | json_t.array items => items
  | _ => []

/-- Function `json_array_size` of jansson: 0 for a value that is not an array. -/
def json_array_size (j : json_t) : Nat :=
  (json_array_items j).length

/-- Function `json_is_object` of jansson. -/
def json_is_object : json_t → Bool
  | json_t.object _ => true
  | _ => false

/-- First value stored under `key` in a member list. -/
def members_get (key : String) : List (String × json_t) → Option json_t
  | [] => none
  | (k, v) :: rest => if k = key then some v else members_get key rest

/-- Function `json_object_get` of jansson: `NULL` when the key is absent. -/
def json_object_get (obj : json_t) (key : String) : Option json_t :=
  match obj with
  | json_t.object members => members_get key members
  | _ => none

/-- Function `json_string_value` of jansson: `NULL` unless the value is a string. -/
def json_string_value : Option json_t → Option String
  | some (json_t.string s) => some s
  | _ => none

/-! ## Table build and publish: `set_filter_rules` -/

/-- The shared state of `filter_rules.c` that the table operations change: the
slot `filter_rules`, and the log of the tables handed to `free_filter_rules`
(a `NULL` argument makes that function return at once and is not logged). -/
structure rules_state where
  filter_rules : Option (List filter_rule_t)
  released : List (List filter_rule_t)
deriving DecidableEq, Repr

/-- The state at program start: `filter_rules = NULL`, nothing released. -/
def initial_rules_state : rules_state :=
  { filter_rules := none, released := [] }

/-- A rule as `calloc` leaves it: all pointers `NULL`, all bytes zero. -/
def zero_rule : filter_rule_t :=
  { action := none, field := none, value := none, mac_addr := zero_ether_addr, ipv4 := 0 }

/-- Helper `set_json_string`: `*dst` is left as it is when the value is not a
string, and otherwise becomes a fresh copy of the text. -/
def set_json_string (dst : Option String) (jval : Option json_t) : Option String :=
  match json_string_value jval with
  | none => dst
  | some str => some str

/-- The three assignments of the body of `json_array_foreach` (lines 167-174). -/
def fill_rule (rule : filter_rule_t) (obj : json_t) : filter_rule_t :=
  let rule1 := { rule with action := set_json_string rule.action (json_object_get obj "action") }
  let rule2 := { rule1 with field := set_json_string rule1.field (json_object_get obj "field") }
  { rule2 with value := set_json_string rule2.value (json_object_get obj "value") }

/-- The loop `json_array_foreach(json_arrays, index, obj)` of `set_filter_rules`,
entered at `index` with the elements from `index` on still ahead.  `new_rules` is
the array of `num` rules; `new_rules[index]` with `index >= num` is the `NULL`
terminator or lies past the array, and writing through it is undefined. -/
def fill_rules : List json_t → Nat → List filter_rule_t → Option (List filter_rule_t)
  | [], _, new_rules => some new_rules
  | obj :: rest, index, new_rules =>
    if json_is_object obj then
      match new_rules.get? index with
      | none => none
      | some rule => fill_rules rest (index + 1) (new_rules.set index (fill_rule rule obj))
    else fill_rules rest (index + 1) new_rules

/-- Function `free_filter_rules`, as a change of the release log. -/
def free_filter_rules (rules : Option (List filter_rule_t))
    (released : List (List filter_rule_t)) : List (List filter_rule_t) :=
  match rules with
  | none => released
  | some table => released ++ [table]

/-- Function `set_new_rules`: the slot takes the new table, the table it held
before is released. -/
def set_new_rules (st : rules_state) (new : Option (List filter_rule_t)) : rules_state :=
  let tmp := st.filter_rules
  { filter_rules := new, released := free_filter_rules tmp st.released }

/-- Function `set_filter_rules`.  `calloc1` and `calloc2` say whether the two
checked allocations succeed.  The result is the returned code and the state
after the call. -/
def set_filter_rules (lib : Lib) (calloc1 calloc2 : Bool) (st : rules_state)
    (json_arrays : json_t) : Option (Nat × rules_state) :=
  let num := json_array_size json_arrays % 65536
  if num = 0 then some (1, st)
  else if !calloc1 then some (1, st)
  else if !calloc2 then some (1, st)
  else
    match fill_rules (json_array_items json_arrays) 0 (List.replicate num zero_rule) with
    | none => none
    | some filled =>
      match prepare_filter_actions lib filled with
      | none => none
      | some new_rules => some (0, set_new_rules st (some new_rules))

/-! ## Rule descriptions and canonical texts -/

/-- An entry of the payload is well formed when it is an object holding a text
under each of "action", "field" and "value". -/
def well_formed_entry (obj : json_t) : Bool :=
  json_is_object obj
    && (json_string_value (json_object_get obj "action")).isSome
    && (json_string_value (json_object_get obj "field")).isSome
    && (json_string_value (json_object_get obj "value")).isSome

/-- The payload entry with the three given texts. -/
def rule_entry (action field value : String) : json_t :=
  json_t.object [("action", json_t.string action), ("field", json_t.string field),
    ("value", json_t.string value)]

/-- Decimal digit `d` as a character. -/
def dec_digit (d : Nat) : Char := Char.ofNat (48 + d % 10)

/-- Decimal text of a byte, without leading zeros. -/
def dec_text (n : Nat) : List Char :=
  if n < 10 then [dec_digit n]
  else if n < 100 then [dec_digit (n / 10), dec_digit n]
  else [dec_digit (n / 100), dec_digit (n / 10), dec_digit n]

/-- Dotted-decimal text of the address whose bytes in network order are the
big-endian bytes of `a`. -/
def ipv4_text (a : Nat) : String :=
  String.mk (dec_text (a / 16777216 % 256) ++ '.' :: dec_text (a / 65536 % 256)
    ++ '.' :: dec_text (a / 256 % 256) ++ '.' :: dec_text (a % 256))

/-- Hexadecimal digit `d` as a lower-case character. -/
def hex_digit (d : Nat) : Char :=
  if d % 16 < 10 then Char.ofNat (48 + d % 16) else Char.ofNat (87 + d % 16)

/-- Two-digit hexadecimal text of a byte. -/
def hex_text (n : Nat) : List Char := [hex_digit (n / 16), hex_digit n]

/-- Six-octet hexadecimal text `xx:xx:xx:xx:xx:xx` of an Ethernet address. -/
def mac_text (m : rte_ether_addr) : String :=
  String.mk (hex_text m.b0 ++ ':' :: hex_text m.b1 ++ ':' :: hex_text m.b2
    ++ ':' :: hex_text m.b3 ++ ':' :: hex_text m.b4 ++ ':' :: hex_text m.b5)

/-! ## A reference instance of the library parsers

It accepts the canonical texts only, on which every version of the two library
functions agrees with it, and rejects texts without any digit group. -/

/-- Split a text at every occurrence of `sep`. -/
def split_at (sep : Char) : List Char → List (List Char)
  | [] => [[]]
  | c :: cs =>
    if c = sep then [] :: split_at sep cs
    else
      match split_at sep cs with
      | [] => [[c]]
      | part :: parts => (c :: part) :: parts

/-- Value of a decimal digit character. -/
def dec_value (c : Char) : Option Nat :=
  if 48 ≤ c.toNat ∧ c.toNat ≤ 57 then some (c.toNat - 48) else none

/-- Value of a canonical decimal byte text (one to three digits, no leading
zero, at most 255). -/
def parse_dec_byte (cs : List Char) : Option Nat :=
  match cs with
  | [x] => dec_value x
  | [x, y] =>
    match dec_value x, dec_value y with
    | some a, some b => if a = 0 then none else some (10 * a + b)
    | _, _ => none
  | [x, y, z] =>
    match dec_value x, dec_value y, dec_value z with
    | some a, some b, some c =>
      if a = 0 then none else if 100 * a + 10 * b + c < 256 then some (100 * a + 10 * b + c)
      else none
    | _, _, _ => none
  | _ => none

/-- Reference parser for dotted-decimal texts `a.b.c.d`. -/
def ref_inet_aton (text : String) : Option Nat :=
  match (split_at '.' text.data).map parse_dec_byte with
  | [some a, some b, some c, some d] => some (a * 16777216 + b * 65536 + c * 256 + d)
  | _ => none

/-- Value of a hexadecimal digit character. -/
def hex_value (c : Char) : Option Nat :=
  if 48 ≤ c.toNat ∧ c.toNat ≤ 57 then some (c.toNat - 48)
  else if 97 ≤ c.toNat ∧ c.toNat ≤ 102 then some (c.toNat - 87)
  else if 65 ≤ c.toNat ∧ c.toNat ≤ 70 then some (c.toNat - 55)
  else none

/-- Value of a two-digit hexadecimal byte text. -/
def parse_hex_byte (cs : List Char) : Option Nat :=
  match cs with
  | [x, y] =>
    match hex_value x, hex_value y with
    | some a, some b => some (16 * a + b)
    | _, _ => none
  | _ => none

/-- Reference parser for Ethernet address texts `xx:xx:xx:xx:xx:xx`. -/
def ref_ether_unformat_addr (text : String) : Option rte_ether_addr :=
  match (split_at ':' text.data).map parse_hex_byte with
  | [some a, some b, some c, some d, some e, some f] => some ⟨a, b, c, d, e, f⟩
  | _ => none

/-- The reference library instance. -/
def ref_lib : Lib :=
  { inet_aton := ref_inet_aton, rte_ether_unformat_addr := ref_ether_unformat_addr }

/-! ## Interleaving of `filter_set` and `filter_pckts_cb`

One control context runs `filter_set`, one processing context runs
`filter_pckts_cb`; a schedule says which of the two executes its next statement.
Tables are named by numbers; of a table only its number of rules matters here.
The spin lock is the DPDK `rte_spinlock_t`: `rte_spinlock_init` stores 0 in
`locked`, `rte_spinlock_lock` waits until it can change `locked` from 0 to 1,
`rte_spinlock_unlock` stores 0. -/

/-- Where the processing context stands inside `filter_pckts_cb`. -/
inductive cls_pc where
  | idle : cls_pc
  | holding : cls_pc
  | scanning : Nat → Nat → cls_pc
  | leaving : cls_pc
deriving DecidableEq, Repr

/-- Where the control context stands inside `filter_set`.  `saved tmp new` and
the later points carry the locals `tmp` and `new_rules` of `set_new_rules`. -/
inductive ctl_pc where
  | idle : ctl_pc
  | inited : ctl_pc
  | built : Nat → ctl_pc
  | saved : Option Nat → Nat → ctl_pc
  | holding : Option Nat → Nat → ctl_pc
  | swapped : Option Nat → Nat → ctl_pc
  | unlocked : Option Nat → Nat → ctl_pc
deriving DecidableEq, Repr

/-- Shared memory and the two program points.  `sizes` lists the tables built so
far (table `t` has `sizes[t]` rules), `released` the tables already given to
`free_filter_rules`, and `stale_reads` counts the reads `rules[i]` made by the
classifier in a table that had been released. -/
structure il_state where
  locked : Bool
  filter_rules : Option Nat
  sizes : List Nat
  released : List Nat
  cls : cls_pc
  ctl : ctl_pc
  stale_reads : Nat
deriving DecidableEq, Repr

/-- The context that executes the next statement; the control context names the
number of rules of the table it builds when it reaches that statement. -/
inductive actor where
  | classifier : actor
  | control : Nat → actor
deriving DecidableEq, Repr

/-- One statement of `filter_pckts_cb`: take the lock (line 265), read the slot
(line 267), read `rules[i]` and run the loop body on it (lines 269-302), release the
lock (line 304).  `none`: the statement cannot execute (the lock is held, or the slot
is `NULL`). -/
def cls_step (s : il_state) : Option il_state :=
  match s.cls with
  | cls_pc.idle => if s.locked then none else some { s with locked := true, cls := cls_pc.holding }
  | cls_pc.holding =>
    match s.filter_rules with
    | none => none
    | some t => some { s with cls := cls_pc.scanning t 0 }
  | cls_pc.scanning t i =>
    let stale := if t ∈ s.released then s.stale_reads + 1 else s.stale_reads
    if i < s.sizes.getD t 0 then some { s with cls := cls_pc.scanning t (i + 1), stale_reads := stale }
    else some { s with cls := cls_pc.leaving, stale_reads := stale }
  | cls_pc.leaving => some { s with locked := false, cls := cls_pc.idle }

/-- One statement of `filter_set` on a payload that decodes to `num` rules:
`rte_spinlock_init(&lock)` (line 214), the build of the new table inside
`set_filter_rules` (lines 124-177), and the statements of `set_new_rules`:
`tmp = *old` (line 56), lock (58), `*old = *new` (59), unlock (60),
`free_filter_rules(tmp)` (62). -/
def ctl_step (num : Nat) (s : il_state) : Option il_state :=
  match s.ctl with
  | ctl_pc.idle => some { s with locked := false, ctl := ctl_pc.inited }
  | ctl_pc.inited => some { s with sizes := s.sizes ++ [num], ctl := ctl_pc.built s.sizes.length }
  | ctl_pc.built new => some { s with ctl := ctl_pc.saved s.filter_rules new }
  | ctl_pc.saved tmp new =>
    if s.locked then none else some { s with locked := true, ctl := ctl_pc.holding tmp new }
  | ctl_pc.holding tmp new => some { s with filter_rules := some new, ctl := ctl_pc.swapped tmp new }
  | ctl_pc.swapped tmp new => some { s with locked := false, ctl := ctl_pc.unlocked tmp new }
  | ctl_pc.unlocked tmp _ =>
    match tmp with
    | none => some { s with ctl := ctl_pc.idle }
    | some t => some { s with released := s.released ++ [t], ctl := ctl_pc.idle }

/-- One step of the interleaving. -/
def il_step (s : il_state) : actor → Option il_state
  | actor.classifier => cls_step s
  | actor.control num => ctl_step num s

/-- Run a schedule from a state. -/
def il_run : List actor → il_state → Option il_state
  | [], s => some s
  | a :: rest, s =>
    match il_step s a with
    | none => none
    | some s1 => il_run rest s1

/-- The state after a first `filter_set` has published table 0, of two rules, with
both contexts idle and the lock free. -/
def il_published : il_state :=
  { locked := false, filter_rules := some 0, sizes := [2], released := [],
    cls := cls_pc.idle, ctl := ctl_pc.idle, stale_reads := 0 }

/-- A schedule: the classifier takes the lock and starts its scan of table 0, then
a whole `filter_set` runs, then the classifier reads the next rule. -/
def il_schedule : List actor :=
  [actor.classifier, actor.classifier, actor.classifier,
   actor.control 1, actor.control 1, actor.control 1, actor.control 1,
   actor.control 1, actor.control 1, actor.control 1,
   actor.classifier]

/-! ## Concrete rules and batches used in the examples -/

/-- The compiled rule `{drop, ip_dst, 10.0.0.1}`. -/
def scenario_rule : filter_rule_t :=
  { action := some "drop", field := some "ip_dst", value := some "10.0.0.1",
    mac_addr := zero_ether_addr, ipv4 := 0x0A000001 }

/-- An IPv4 packet (`packet_type = RTE_PTYPE_L2_ETHER | RTE_PTYPE_L3_IPV4`) with
the given destination address and Ethernet destination `02:00:00:00:00:01`. -/
def ipv4_packet (dst : Nat) : rte_mbuf :=
  { packet_type := 0x11, eth_dst := ⟨2, 0, 0, 0, 0, 1⟩, eth_src := ⟨2, 0, 0, 0, 0, 2⟩,
    ether_type := 0x0800, ipv4_dst := dst }

/-- A batch of five packets; only the third is destined to 10.0.0.1. -/
def scenario_batch : List rte_mbuf :=
  [ipv4_packet 0x0A000002, ipv4_packet 0x0A000003, ipv4_packet 0x0A000001,
   ipv4_packet 0x0A000004, ipv4_packet 0x0A000005]

/-- The condition `texts_present` can be checked rule by rule. -/
instance texts_present_decidable (rules : List filter_rule_t) :
    Decidable (texts_present rules) :=
  inferInstanceAs (Decidable (∀ r ∈ rules, r.action ≠ none ∧ r.field ≠ none))

/-! ## Descriptions used in the statements on the table build -/

/-- The rule that `set_filter_rules` leaves in the slot of one payload entry
before compilation: the zeroed rule, with the texts the entry has when it is an
object. -/
def entry_rule (obj : json_t) : filter_rule_t :=
  if json_is_object obj then fill_rule zero_rule obj else zero_rule

/-- The three texts of a rule. -/
def rule_texts (r : filter_rule_t) : Option String × Option String × Option String :=
  (r.action, r.field, r.value)

/-- The three texts of a payload entry, each `none` when the entry has no text
under that key. -/
def entry_texts (obj : json_t) : Option String × Option String × Option String :=
  (json_string_value (json_object_get obj "action"),
   json_string_value (json_object_get obj "field"),
   json_string_value (json_object_get obj "value"))

/-- The entry has the texts that `prepare_filter_actions` reads: a field text, and
a value text when the field text holds "ip_dst" or "mac_src".  An entry that is not
an object has no field text. -/
def entry_buildable (obj : json_t) : Bool :=
  match json_string_value (json_object_get obj "field") with
  | none => false
  | some field =>
    if strstr field "ip_dst" || strstr field "mac_src" then
      (json_string_value (json_object_get obj "value")).isSome
    else true

/-- A table published before the examples start: one `mac_src` drop rule. -/
def earlier_table : List filter_rule_t :=
  [{ action := some "drop", field := some "mac_src", value := some "11:22:33:44:55:66",
     mac_addr := ⟨0x11, 0x22, 0x33, 0x44, 0x55, 0x66⟩, ipv4 := 0 }]

/-- A packet that is not IPv4 (`packet_type = RTE_PTYPE_L2_ETHER`) with the given
Ethernet destination address. -/
def ether_packet (dst : rte_ether_addr) : rte_mbuf :=
  { packet_type := 0x1, eth_dst := dst, eth_src := ⟨2, 0, 0, 0, 0, 2⟩,
    ether_type := 0x0806, ipv4_dst := 0 }

/-- The rule built from the entry `{"field": "x", "value": "y"}`: its action is
`NULL`. -/
def null_action_rule : filter_rule_t :=
  { action := none, field := some "x", value := some "y", mac_addr := zero_ether_addr,
    ipv4 := 0 }

/-- A payload of two entries: a well-formed one, and one with no action text. -/
def mixed_payload : List json_t :=
  [rule_entry "drop" "ip_dst" "10.0.0.1",
   json_t.object [("field", json_t.string "x"), ("value", json_t.string "y")]]

/-! ## The value a classification call returns -/

/-- The value returned by a call of `filter_pckts_cb`, when the call returns. -/
def returned_count (r : Option cb_state) : Option Nat :=
  r.map (fun st => st.nb_pkts)

/-- The compiled rule `{dont_drop, ip_dst, 10.0.0.1}`: its action text is not
"drop", but holds it. -/
def dont_drop_rule : filter_rule_t :=
  { action := some "dont_drop", field := some "ip_dst", value := some "10.0.0.1",
    mac_addr := zero_ether_addr, ipv4 := 0x0A000001 }

/-! ## Lifetime of the tables

The table operations seen at the level of table objects.  Every successful build
allocates a new table object; objects are numbered in the order of their
allocation.  `filter_rules` holds the number of the object the slot points to, and
`freed` lists the objects handed to `free_filter_rules`, in order, once per call. -/

/-- The slot and the allocator. -/
structure table_heap where
  filter_rules : Option Nat
  built : Nat
  freed : List Nat
deriving DecidableEq, Repr

/-- Function `free_filter_rules` on a table object: nothing for `NULL`, otherwise
the rules, the rule array and the pointer array of the object are freed. -/
def free_table (rules : Option Nat) (h : table_heap) : table_heap :=
  match rules with
  | none => h
  | some t => { h with freed := h.freed ++ [t] }

/-- Function `set_new_rules` on table objects: `tmp = *old; *old = *new;
free_filter_rules(tmp)`. -/
def swap_table (h : table_heap) (new : Nat) : table_heap :=
  let tmp := h.filter_rules
  free_table tmp { h with filter_rules := some new }

/-- A call of `filter_set`.  `publishes` says whether the payload decodes to a
non-empty array and the build goes through, in which case `set_filter_rules`
allocates a new table object and calls `set_new_rules`; otherwise the call returns
before any change. -/
def filter_set_heap (publishes : Bool) (h : table_heap) : table_heap :=
  if publishes then swap_table { h with built := h.built + 1 } h.built else h

/-- Function `filter_remove_callback`, after the removal of the callbacks:
`free_filter_rules(filter_rules)`.  The slot keeps its value. -/
def filter_remove_callback (h : table_heap) : table_heap :=
  free_table h.filter_rules h

/-- A table operation. -/
inductive table_op where
  | set : Bool → table_op
  | remove : table_op
deriving DecidableEq, Repr

/-- One table operation. -/
def table_step (h : table_heap) : table_op → table_heap
  | table_op.set publishes => filter_set_heap publishes h
  | table_op.remove => filter_remove_callback h

/-- A sequence of table operations, from left to right. -/
def table_run : List table_op → table_heap → table_heap
  | [], h => h
  | op :: rest, h => table_run rest (table_step h op)

/-- The state at program start: `filter_rules = NULL`, no table built. -/
def initial_table_heap : table_heap :=
  { filter_rules := none, built := 0, freed := [] }

/-- The slot points to no freed table, no table was freed twice, and every table
named was built. -/
def table_heap_ok (h : table_heap) : Prop :=
  (∀ t, h.filter_rules = some t → t ∉ h.freed ∧ t < h.built) ∧
  h.freed.Nodup ∧ (∀ t ∈ h.freed, t < h.built)

/-! ## Control channel: `filter_srv.c`

Descriptors and return codes are `Int`.  The calls that reach outside the program
(`socket`, `bind`, `listen`, `accept`, `recv`, `close`, `shutdown`, `free`) are
modelled by what they return, given as arguments, and by logs of the calls made. -/

/-- The record `filter_srv_t`.  `recvbuf` is `none` for `NULL`, otherwise the bytes
of the buffer. -/
structure filter_srv_t where
  sock : Int
  cli_sock : Int
  port : Int
  enabled : Int
  recvbuf_size : Nat
  recvbuf : Option (List Nat)
deriving DecidableEq, Repr

/-- The static `filter_srv` with its logs: `opened` lists the descriptors that
`socket` and `accept` returned to the channel, `shut` and `closed` the arguments of
the calls of `shutdown` and `close`, `freed` the buffers given to `free` (a call
`free(NULL)` does nothing and is not listed). -/
structure srv_world where
  filter_srv : filter_srv_t
  opened : List Int
  shut : List Int
  closed : List Int
  freed : List (List Nat)
deriving DecidableEq, Repr

/-- The state at program start: `static filter_srv_t filter_srv = {0}`. -/
def initial_srv_world : srv_world :=
  { filter_srv := ⟨0, 0, 0, 0, 0, none⟩,
    opened := [], shut := [], closed := [], freed := [] }

/-- Function `resize_recvbuf`.  `realloc` is taken to succeed; it keeps the bytes
that fit, and the bytes it adds are overwritten by the `memset` that follows.
`none`: `memset` on a `NULL` buffer. -/
def resize_recvbuf (size : Nat) (w : srv_world) : Option srv_world :=
  if size = 0 then
    some { w with
      freed := match w.filter_srv.recvbuf with
        | none => w.freed
        | some buf => w.freed ++ [buf],
      filter_srv := { w.filter_srv with recvbuf := none, recvbuf_size := 0 } }
  else
    let srv1 : filter_srv_t :=
      if w.filter_srv.recvbuf_size ≠ size then
        { w.filter_srv with
          recvbuf := some (((w.filter_srv.recvbuf.getD []).take size)
            ++ List.replicate (size - (w.filter_srv.recvbuf.getD []).length) 0),
          recvbuf_size := size }
      else w.filter_srv
    match srv1.recvbuf with
    | none => none
    | some _ => some { w with
        filter_srv := { srv1 with recvbuf := some (List.replicate srv1.recvbuf_size 0) } }

/-- Function `filter_srv_stop`. -/
def filter_srv_stop (w : srv_world) : Option srv_world :=
  let w1 : srv_world := { w with filter_srv := { w.filter_srv with enabled := 0 } }
  let w2 : srv_world :=
    if w1.filter_srv.sock ≥ 0 then
      { w1 with
        shut := w1.shut ++ [w1.filter_srv.sock],
        closed := w1.closed ++ [w1.filter_srv.sock],
        filter_srv := { w1.filter_srv with sock := -1 } }
    else w1
  let w3 : srv_world :=
    if w2.filter_srv.cli_sock ≥ 0 then
      { w2 with
        closed := w2.closed ++ [w2.filter_srv.cli_sock],
        filter_srv := { w2.filter_srv with cli_sock := -1 } }
    else w2
  resize_recvbuf 0 w3

/-- What the system calls of a start of the channel return. -/
structure sys_results where
  socket : Int
  bind : Int
  listen : Int
  pthread_create : Int
  pthread_detach : Int
deriving DecidableEq, Repr

/-- Function `filter_conn_init`: the returned code and the state after the call. -/
def filter_conn_init (port : Int) (sys : sys_results) (w : srv_world) :
    Option (Int × srv_world) :=
  let w1 : srv_world :=
    { w with
      filter_srv := { w.filter_srv with sock := sys.socket, port := port },
      opened := if sys.socket = -1 then w.opened else w.opened ++ [sys.socket] }
  if w1.filter_srv.sock = -1 then some (-1, w1)
  else if sys.bind = -1 then
    match filter_srv_stop w1 with
    | none => none
    | some w2 => some (-1, w2)
  else if sys.listen = -1 then
    match filter_srv_stop w1 with
    | none => none
    | some w2 => some (-1, w2)
  else some (0, w1)

/-- Function `filter_srv_run`, up to the start of the receive thread. -/
def filter_srv_run (port : Int) (sys : sys_results) (w : srv_world) :
    Option (Int × srv_world) :=
  match filter_conn_init port sys w with
  | none => none
  | some (ret, w1) =>
    if ret = -1 then some (-1, w1)
    else
      let w2 : srv_world := { w1 with filter_srv := { w1.filter_srv with enabled := 1 } }
      if sys.pthread_create ≠ 0 then some (-1, w2)
      else if sys.pthread_detach ≠ 0 then some (-1, w2)
      else some (0, w2)

/-- The call `accept(filter_srv.sock, NULL, NULL)` of `filter_recv_thread` (line 161):
the state after it, and the local `accepted_socket` when it is not -1.  No field
of `filter_srv` is assigned. -/
def accept_connection (accept_ret : Int) (w : srv_world) : srv_world × Option Int :=
  if accept_ret = -1 then (w, none)
  else ({ w with opened := w.opened ++ [accept_ret] }, some accept_ret)

/-! ## Receive loop and `filter_set` -/

/-- What one call of `recv` returns: -1, or the number of bytes it stored at
`pbuf`, given here with the bytes (no byte: the return value 0). -/
inductive recv_result where
  | failed : recv_result
  | got : List Nat → recv_result
deriving DecidableEq, Repr

/-- The third argument of `recv`: the `ssize_t` value `remain` converted to
`size_t`. -/
def size_t_of (x : Int) : Nat :=
  (x % 18446744073709551616).toNat

/-- The second argument of `filter_set`: a value converted to `uint16_t`. -/
def uint16_of (x : Int) : Nat :=
  (x % 65536).toNat

/-- Bytes `bytes` stored in `buf` from offset `off` on. -/
def store_at (buf : List Nat) (off : Nat) (bytes : List Nat) : List Nat :=
  buf.take off ++ bytes ++ buf.drop (off + bytes.length)

/-- The locals of `filter_recvd_processing` during the loop `do ... while`: `total`,
`remain`, `pbuf` as an offset into the buffer, and the buffer; `calls` counts the
calls of `recv` made so far and `received` collects the bytes they delivered. -/
structure recv_state where
  total : Int
  remain : Int
  pbuf : Nat
  recvbuf : List Nat
  calls : Nat
  received : List Nat
deriving DecidableEq, Repr

/-- The loop `do { ... } while(total < buf_size)` of `filter_recvd_processing`
(lines 121-138).  `recv k len` is what the `k`-th call of `recv` returns when asked
for `len` bytes.  Every iteration that does not leave the loop adds at least one to
`total`, so `buf_size` iterations are enough from `total = 0`; the first argument
bounds their number. -/
def recv_loop (recv : Nat → Nat → recv_result) (buf_size : Int) :
    Nat → recv_state → Option recv_state
  | 0, _ => none
  | fuel + 1, s =>
    match recv s.calls (size_t_of s.remain) with
    | recv_result.failed => some { s with total := -1, calls := s.calls + 1 }
    | recv_result.got bytes =>
      if bytes.length = 0 then some { s with calls := s.calls + 1 }
      else
        let s1 : recv_state :=
          { total := s.total + bytes.length,
            remain := s.remain - bytes.length,
            pbuf := s.pbuf + bytes.length,
            recvbuf := store_at s.recvbuf s.pbuf bytes,
            calls := s.calls + 1,
            received := s.received ++ bytes }
        if s1.total < buf_size then recv_loop recv buf_size fuel s1 else some s1

/-- The locals at the entry of the loop: `remain = buf_size - 1`, `total = 0`,
`pbuf = filter_srv.recvbuf`. -/
def recv_start (buf : List Nat) : recv_state :=
  { total := 0, remain := 4095, pbuf := 0, recvbuf := buf, calls := 0, received := [] }

/-- Function `json_is_array` of jansson. -/
def json_is_array : json_t → Bool
  | json_t.array _ => true
  | _ => false

/-- What the control context is given from outside: the library parsers, the
decoder `json_loadb` (`none` when it returns `NULL`), whether the two checked
allocations of a build succeed, and the answers of `recv`. -/
structure ctl_env where
  lib : Lib
  json_loadb : List Nat → Option json_t
  calloc1 : Bool
  calloc2 : Bool
  recv : Nat → Nat → recv_result

/-- Function `filter_set` on the first `rules_size` bytes of `rules`: the table
state after the call (the lock is handled in the interleaving model). -/
def filter_set (env : ctl_env) (st : rules_state) (rules : List Nat) (rules_size : Nat) :
    Option rules_state :=
  match env.json_loadb (rules.take rules_size) with
  | none => some st
  | some jdata =>
    match set_filter_rules env.lib env.calloc1 env.calloc2 st jdata with
    | none => none
    | some (_, st1) => some st1

/-- The state of the control context: the channel, the table state, and the log of
the calls of `filter_set`, each with the bytes and the size it was given. -/
structure ctl_world where
  srv : srv_world
  rules : rules_state
  filter_set_calls : List (List Nat × Nat)
deriving DecidableEq, Repr

/-- The body of `while(filter_srv.enabled)` in `filter_recvd_processing`
(lines 112-144), which is left by `break` in its first round. -/
def receive_and_set (env : ctl_env) (w : ctl_world) : Option ctl_world :=
  match resize_recvbuf 4096 w.srv with
  | none => none
  | some srv1 =>
    match srv1.filter_srv.recvbuf with
    | none => none
    | some buf =>
      match recv_loop env.recv 4096 4096 (recv_start buf) with
      | none => none
      | some s =>
        let srv2 : srv_world :=
          { srv1 with filter_srv := { srv1.filter_srv with recvbuf := some s.recvbuf } }
        if s.total = -1 then some { w with srv := srv2 }
        else
          match filter_set env w.rules s.recvbuf (uint16_of s.total) with
          | none => none
          | some rules1 =>
            some { srv := srv2, rules := rules1,
                   filter_set_calls := w.filter_set_calls ++ [(s.recvbuf, uint16_of s.total)] }

/-- Function `filter_recvd_processing`. -/
def filter_recvd_processing (env : ctl_env) (sock : Int) (w : ctl_world) : Option ctl_world :=
  match (if w.srv.filter_srv.enabled ≠ 0 then receive_and_set env w else some w) with
  | none => none
  | some w1 =>
    let srv1 : srv_world :=
      { w1.srv with shut := w1.srv.shut ++ [sock], closed := w1.srv.closed ++ [sock] }
    match resize_recvbuf 0 srv1 with
    | none => none
    | some srv2 => some { w1 with srv := srv2 }

/-- The channel is consistent: the buffer is `NULL` exactly when its recorded size
is 0. -/
def recvbuf_consistent (w : srv_world) : Prop :=
  w.filter_srv.recvbuf = none ↔ w.filter_srv.recvbuf_size = 0

/-- The condition `recvbuf_consistent` can be checked. -/
instance recvbuf_consistent_decidable (w : srv_world) : Decidable (recvbuf_consistent w) :=
  inferInstanceAs (Decidable (w.filter_srv.recvbuf = none ↔ w.filter_srv.recvbuf_size = 0))

/-- The state that one call of `filter_srv_stop` leaves, written out. -/
def stopped (w : srv_world) : srv_world :=
  { filter_srv :=
      { sock := if w.filter_srv.sock ≥ 0 then -1 else w.filter_srv.sock,
        cli_sock := if w.filter_srv.cli_sock ≥ 0 then -1 else w.filter_srv.cli_sock,
        port := w.filter_srv.port,
        enabled := 0,
        recvbuf_size := 0,
        recvbuf := none },
    opened := w.opened,
    shut := w.shut ++ (if w.filter_srv.sock ≥ 0 then [w.filter_srv.sock] else []),
    closed := (w.closed ++ (if w.filter_srv.sock ≥ 0 then [w.filter_srv.sock] else []))
      ++ (if w.filter_srv.cli_sock ≥ 0 then [w.filter_srv.cli_sock] else []),
    freed := w.freed ++ (match w.filter_srv.recvbuf with
      | none => []
      | some buf => [buf]) }

/-- A channel that listens on descriptor 3, with no connection, and a receive
buffer of two bytes. -/
def listening_world : srv_world :=
  { filter_srv := ⟨3, -1, 5000, 1, 2, some [0, 0]⟩,
    opened := [3], shut := [], closed := [], freed := [] }

/-- What holds of the locals at every entry of the receive loop: `total` and `pbuf`
are the number of bytes received so far, `total + remain = 4095` with `remain` not
negative, the buffer has its 4096 bytes, and its first `total` bytes are the bytes
received, in order. -/
def recv_inv (s : recv_state) : Prop :=
  0 ≤ s.remain ∧ s.total + s.remain = 4095 ∧ s.total = s.received.length ∧
  s.pbuf = s.received.length ∧ s.recvbuf.length = 4096 ∧
  s.recvbuf.take s.received.length = s.received

/-- What holds of the locals when the receive loop is left: the buffer has its 4096
bytes, `remain` is not negative, the bytes received and `remain` add up to 4095,
the buffer starts with the bytes received, and `total` is -1 or the number of bytes
received. -/
def recv_post (s : recv_state) : Prop :=
  s.recvbuf.length = 4096 ∧ 0 ≤ s.remain ∧ (s.received.length : Int) + s.remain = 4095 ∧
  s.recvbuf.take s.received.length = s.received ∧
  (s.total = -1 ∨ (s.total = s.received.length ∧ s.total + s.remain = 4095))

/-- A `recv` that answers as the system call does: it never returns more bytes
than it was asked for. -/
def recv_contract (recv : Nat → Nat → recv_result) : Prop :=
  ∀ k len bytes, recv k len = recv_result.got bytes → bytes.length ≤ len

/-- A connection that delivers "[]" in two calls of one byte each and is then
closed by the peer. -/
def two_byte_recv (k len : Nat) : recv_result :=
  if k = 0 ∧ 1 ≤ len then recv_result.got [91]
  else if k = 1 ∧ 1 ≤ len then recv_result.got [93]
  else recv_result.got []

/-- A connection whose first `recv` fails. -/
def failing_recv : Nat → Nat → recv_result :=
  fun _ _ => recv_result.failed

/-- A decoder that knows the payload "[]" (the empty array) and the payload "7" (a
number), and rejects every other payload. -/
def ref_json_loadb (bytes : List Nat) : Option json_t :=
  if bytes = [91, 93] then some (json_t.array [])
  else if bytes = [55] then some (json_t.integer 7)
  else none

/-- An environment for the examples. -/
def ref_env (recv : Nat → Nat → recv_result) : ctl_env :=
  { lib := ref_lib, json_loadb := ref_json_loadb, calloc1 := true, calloc2 := true,
    recv := recv }

/-- A running channel with one table published and no call of `filter_set` logged. -/
def running_ctl_world : ctl_world :=
  { srv := listening_world, rules := ⟨some earlier_table, []⟩, filter_set_calls := [] }

/-- A receive error occurs on the connection: the calls of `recv` from the `k`-th on
deliver the chunks of the list, one non-empty chunk per call, each asked for with
the `remain` of that moment and each leaving `total` below `buf_size` so that the
loop goes on, and the call that follows them returns -1. -/
def delivers_then_fails (recv : Nat → Nat → recv_result) :
    List (List Nat) → Nat → Int → Int → Prop
  | [], k, _, remain => recv k (size_t_of remain) = recv_result.failed
  | chunk :: rest, k, total, remain =>
    chunk ≠ [] ∧ recv k (size_t_of remain) = recv_result.got chunk ∧
    total + chunk.length < 4096 ∧
    delivers_then_fails recv rest (k + 1) (total + chunk.length) (remain - chunk.length)

/-- A connection that delivers one byte and then fails. -/
def broken_recv (k len : Nat) : recv_result :=
  if k = 0 ∧ 1 ≤ len then recv_result.got [91] else recv_result.failed

/-- The payload "{": no JSON value. -/
def truncated_payload : List Nat := [123]

/-! # Theorems -/

/-! ## Classification: the two loops in closed form -/

theorem pkt_loop_done (rule : filter_rule_t) (pkts rest : List rte_mbuf) (i : Nat)
    (fr : List (List rte_mbuf)) :
    pkt_loop rule pkts rest i ⟨0, fr⟩ = some ⟨0, fr⟩ := by
  cases rest <;> simp [pkt_loop]

theorem pkt_body_eq (rule : filter_rule_t) (pkts : List rte_mbuf) (p : rte_mbuf)
    (st : cb_state) (a f : String) (ha : rule.action = some a)
    (hd : strstr a "drop" = true) (hf : rule.field = some f) :
    pkt_body rule pkts p st
      = some (if rule_matches rule p = true then free_batch pkts st else st) := by
  unfold pkt_body rule_matches rte_is_same_ether_addr
  rw [ha, hf]
  simp only [hd, Bool.true_and]
  by_cases h1 : strstr f "ip_dst" = true
  · by_cases h2 : RTE_ETH_IS_IPV4_HDR p.packet_type = true
    · by_cases h3 : p.ipv4_dst = rule.ipv4 <;> simp [h1, h2, h3]
    · simp [h1, h2]
  · by_cases h4 : strstr f "mac_src" = true
    · by_cases h5 : rule.mac_addr = p.eth_dst
      · simp [h1, h4, h5]
      · have h6 : ¬ p.eth_dst = rule.mac_addr := fun e => h5 e.symm
        simp [h1, h4, h5, h6]
    · simp [h1, h4]

theorem pkt_loop_eq (rule : filter_rule_t) (pkts : List rte_mbuf) (a f : String)
    (ha : rule.action = some a) (hd : strstr a "drop" = true) (hf : rule.field = some f)
    (fr : List (List rte_mbuf)) :
    ∀ (rest : List rte_mbuf) (i : Nat), i + rest.length = pkts.length →
      pkt_loop rule pkts rest i ⟨pkts.length, fr⟩
        = some (if rest.any (rule_matches rule) = true then ⟨0, fr ++ [pkts]⟩
                else ⟨pkts.length, fr⟩) := by
  intro rest
  induction rest with
  | nil => intro i hi; simp at hi; simp [pkt_loop, hi]
  | cons p rest ih =>
    intro i hi
    have hlt : i < pkts.length := by simp at hi; omega
    have hnext : i + 1 + rest.length = pkts.length := by simp at hi; omega
    simp only [pkt_loop, hlt, if_true]
    rw [pkt_body_eq rule pkts p _ a f ha hd hf]
    by_cases hm : rule_matches rule p = true
    · simp [hm, free_batch, pkt_loop_done]
    · simp [hm, ih (i + 1) hnext]

theorem rule_loop_done (pkts : List rte_mbuf) (fr : List (List rte_mbuf)) :
    ∀ rules : List filter_rule_t, texts_present rules →
      rule_loop pkts rules ⟨0, fr⟩ = some ⟨0, fr⟩ := by
  intro rules
  induction rules with
  | nil => intro _; rfl
  | cons r rules ih =>
    intro h
    have hr := h r (List.mem_cons_self _ _)
    have hrest : texts_present rules := fun x hx => h x (List.mem_cons_of_mem _ hx)
    obtain ⟨a, ha⟩ := Option.ne_none_iff_exists'.mp hr.1
    simp only [rule_loop, ha]
    by_cases hd : strstr a "drop" = true
    · simp [hd, pkt_loop_done, ih hrest]
    · simp [hd, ih hrest]

theorem rule_matches_drop (r : filter_rule_t) (a : String) (ha : r.action = some a)
    (hd : ¬ strstr a "drop" = true) (p : rte_mbuf) : rule_matches r p = false := by
  unfold rule_matches
  rw [ha]
  cases r.field <;> simp [hd]

theorem rule_loop_eq (pkts : List rte_mbuf) :
    ∀ rules : List filter_rule_t, texts_present rules →
      rule_loop pkts rules ⟨pkts.length, []⟩
        = some (if rules.any (fun r => pkts.any (rule_matches r)) = true then ⟨0, [pkts]⟩
                else ⟨pkts.length, []⟩) := by
  intro rules
  induction rules with
  | nil => intro _; rfl
  | cons r rules ih =>
    intro h
    have hr := h r (List.mem_cons_self _ _)
    have hrest : texts_present rules := fun x hx => h x (List.mem_cons_of_mem _ hx)
    obtain ⟨a, ha⟩ := Option.ne_none_iff_exists'.mp hr.1
    obtain ⟨f, hf⟩ := Option.ne_none_iff_exists'.mp hr.2
    simp only [rule_loop, ha]
    by_cases hd : strstr a "drop" = true
    · simp only [hd, if_true]
      rw [pkt_loop_eq r pkts a f ha hd hf [] pkts 0 (by simp)]
      by_cases hm : pkts.any (rule_matches r) = true
      · simp [hm, rule_loop_done pkts [pkts] rules hrest]
      · simp [hm, ih hrest]
    · have hno : pkts.any (rule_matches r) = false := by
        rw [List.any_eq_false]
        intro p _
        simp [rule_matches_drop r a ha hd p]
      simp [hd, ih hrest, hno]

/-- Closed form of one call of `filter_pckts_cb` on a table whose rules all have
their texts. -/
theorem filter_pckts_cb_eq (rules : List filter_rule_t) (pkts : List rte_mbuf)
    (h : texts_present rules) :
    filter_pckts_cb (some rules) pkts
      = some (if rules.any (fun r => pkts.any (rule_matches r)) = true then ⟨0, [pkts]⟩
              else ⟨pkts.length, []⟩) := by
  simp only [filter_pckts_cb]
  exact rule_loop_eq pkts rules h

/-! ## Claims on classification -/

/-- On a table whose rules all carry their texts, `filter_pckts_cb` returns, for
every batch, 0 when some drop rule matches some packet of the batch, and the
original count when no drop rule matches any packet; it returns no other value. -/
theorem filter_pckts_cb_zero_or_count (rules : List filter_rule_t) (pkts : List rte_mbuf)
    (h : texts_present rules) :
    ∃ st, filter_pckts_cb (some rules) pkts = some st ∧
      ((∃ r ∈ rules, ∃ p ∈ pkts, rule_matches r p = true) → st.nb_pkts = 0) ∧
      ((¬ ∃ r ∈ rules, ∃ p ∈ pkts, rule_matches r p = true) → st.nb_pkts = pkts.length) ∧
      (st.nb_pkts = 0 ∨ st.nb_pkts = pkts.length) := by
  refine ⟨_, filter_pckts_cb_eq rules pkts h, ?_, ?_, ?_⟩
  · intro hm
    have : rules.any (fun r => pkts.any (rule_matches r)) = true := by
      simpa [List.any_eq_true] using hm
    simp [this]
  · intro hm
    have : ¬ rules.any (fun r => pkts.any (rule_matches r)) = true := by
      simpa [List.any_eq_true] using hm
    simp [this]
  · by_cases hm : rules.any (fun r => pkts.any (rule_matches r)) = true <;> simp [hm]

/-- The table `[{drop, ip_dst, 10.0.0.1}]` and a batch of five packets of which the
third is an IPv4 packet for 10.0.0.1: the result is 0. -/
theorem filter_pckts_cb_zero_or_count_witness :
    texts_present [scenario_rule] ∧
    (∃ r ∈ [scenario_rule], ∃ p ∈ scenario_batch, rule_matches r p = true) ∧
    filter_pckts_cb (some [scenario_rule]) scenario_batch = some ⟨0, [scenario_batch]⟩ ∧
    ∃ st, filter_pckts_cb (some [scenario_rule]) scenario_batch = some st ∧
      ((∃ r ∈ [scenario_rule], ∃ p ∈ scenario_batch, rule_matches r p = true)
        → st.nb_pkts = 0) ∧
      ((¬ ∃ r ∈ [scenario_rule], ∃ p ∈ scenario_batch, rule_matches r p = true)
        → st.nb_pkts = scenario_batch.length) ∧
      (st.nb_pkts = 0 ∨ st.nb_pkts = scenario_batch.length) :=
  ⟨by decide, by decide, by decide,
    filter_pckts_cb_zero_or_count [scenario_rule] scenario_batch (by decide)⟩

/-- On a table whose rules all carry their texts, one call of `filter_pckts_cb`
either makes no release and returns the count, or makes exactly one bulk release,
of the whole batch, and returns 0. -/
theorem filter_pckts_cb_frees_none_or_all (rules : List filter_rule_t)
    (pkts : List rte_mbuf) (h : texts_present rules) :
    ∃ st, filter_pckts_cb (some rules) pkts = some st ∧
      ((st.freed = [] ∧ st.nb_pkts = pkts.length) ∨ (st.freed = [pkts] ∧ st.nb_pkts = 0)) := by
  refine ⟨_, filter_pckts_cb_eq rules pkts h, ?_⟩
  by_cases hm : rules.any (fun r => pkts.any (rule_matches r)) = true <;> simp [hm]

/-- Two drop rules that both match, and two matching packets: one bulk release of
the whole batch. -/
theorem filter_pckts_cb_frees_none_or_all_witness :
    texts_present [scenario_rule, scenario_rule] ∧
    filter_pckts_cb (some [scenario_rule, scenario_rule]) (scenario_batch ++ scenario_batch)
      = some ⟨0, [scenario_batch ++ scenario_batch]⟩ ∧
    ∃ st, filter_pckts_cb (some [scenario_rule, scenario_rule])
        (scenario_batch ++ scenario_batch) = some st ∧
      ((st.freed = [] ∧ st.nb_pkts = (scenario_batch ++ scenario_batch).length)
        ∨ (st.freed = [scenario_batch ++ scenario_batch] ∧ st.nb_pkts = 0)) :=
  ⟨by decide, by decide,
    filter_pckts_cb_frees_none_or_all [scenario_rule, scenario_rule]
      (scenario_batch ++ scenario_batch) (by decide)⟩

/-- C1: a published table can hold a rule whose action is `NULL`, and on such a
table the callback returns neither the count nor 0.  The build of
`[{drop, ip_dst, 10.0.0.1}, {"field": "x", "value": "y"}]` returns 0 and publishes a
table of two rules, the second without action text.  On a batch of which no rule
matches any packet the call does not return the count, and on the batch of the
scenario, whose third packet is matched by the first rule, it does not return 0:
in both cases it reaches `strstr(rule->action, "drop")` (line 273) with a `NULL`
action. -/
theorem published_null_action_table_no_result :
    set_filter_rules ref_lib true true initial_rules_state (json_t.array mixed_payload)
      = some (0, ⟨some [scenario_rule, null_action_rule], []⟩) ∧
    (∀ r ∈ [scenario_rule, null_action_rule], ∀ p ∈ [ipv4_packet 0x0A000002],
      rule_matches r p = false) ∧
    filter_pckts_cb (some [scenario_rule, null_action_rule]) [ipv4_packet 0x0A000002] = none ∧
    scenario_rule.action = some "drop" ∧
    rule_matches scenario_rule (ipv4_packet 0x0A000001) = true ∧
    filter_pckts_cb (some [scenario_rule, null_action_rule]) scenario_batch = none := by
  decide

/-- C2: on a published table that holds a rule whose action is `NULL` after a drop
rule, a call releases the whole batch and then does not return.  On the table
built from `[{drop, ip_dst, 10.0.0.1}, {"field": "x", "value": "y"}]` and the batch
of the scenario, the outer loop releases the batch at its first rule, goes on to
the second rule with `nb_pkts = 0`, and reaches `strstr(rule->action, "drop")`
(line 273) with a `NULL` action: the call returns neither 0 nor the count. -/
theorem batch_released_before_null_action :
    set_filter_rules ref_lib true true ⟨some earlier_table, []⟩ (json_t.array mixed_payload)
      = some (0, ⟨some [scenario_rule, null_action_rule], [earlier_table]⟩) ∧
    rule_loop scenario_batch [scenario_rule] ⟨scenario_batch.length, []⟩
      = some ⟨0, [scenario_batch]⟩ ∧
    rule_loop scenario_batch [null_action_rule] ⟨0, [scenario_batch]⟩ = none ∧
    filter_pckts_cb (some [scenario_rule, null_action_rule]) scenario_batch = none := by
  decide

/-- C3: with the slot in its initial state (`filter_rules = NULL`) the callback
reads `rules[0]` through the `NULL` pointer, for every batch: it has no result. -/
theorem filter_pckts_cb_unpublished (pkts : List rte_mbuf) :
    filter_pckts_cb initial_rules_state.filter_rules pkts = none := by
  rfl

/-! ## Table build: `set_filter_rules` in closed form -/

theorem fill_rules_eq :
    ∀ (items : List json_t) (done : List filter_rule_t),
      fill_rules items done.length (done ++ List.replicate items.length zero_rule)
        = some (done ++ items.map entry_rule) := by
  intro items
  induction items with
  | nil => intro done; simp [fill_rules]
  | cons obj rest ih =>
    intro done
    have hget : (done ++ zero_rule :: List.replicate rest.length zero_rule).get? done.length
        = some zero_rule := by
      rw [List.get?_eq_getElem?, List.getElem?_append_right (le_refl _)]
      simp
    have hset : ∀ x : filter_rule_t,
        (done ++ zero_rule :: List.replicate rest.length zero_rule).set done.length x
          = (done ++ [x]) ++ List.replicate rest.length zero_rule := by
      intro x
      simp [List.set_append]
    have hlen : ∀ x : filter_rule_t, done.length + 1 = (done ++ [x]).length := by
      intro x; simp
    simp only [List.length_cons, List.replicate_succ, fill_rules, List.map_cons]
    by_cases hobj : json_is_object obj = true
    · simp only [hobj, if_true, hget, hset]
      rw [hlen (fill_rule zero_rule obj), ih]
      simp [entry_rule, hobj]
    · simp only [hobj]
      have happ : done ++ zero_rule :: List.replicate rest.length zero_rule
          = (done ++ [zero_rule]) ++ List.replicate rest.length zero_rule := by simp
      rw [happ, hlen zero_rule, ih]
      simp [entry_rule, hobj]

theorem prepare_rule_texts (lib : Lib) (r : filter_rule_t) (f : String)
    (hf : r.field = some f)
    (hv : (strstr f "ip_dst" || strstr f "mac_src") = true → r.value ≠ none) :
    ∃ r1, prepare_rule lib r = some r1 ∧ rule_texts r1 = rule_texts r := by
  unfold prepare_rule
  simp only [hf]
  by_cases h1 : strstr f "ip_dst" = true
  · obtain ⟨v, hval⟩ := Option.ne_none_iff_exists'.mp (hv (by simp [h1]))
    simp only [hval]
    cases h : lib.inet_aton v <;> simp [h1, rule_texts, hf, hval]
  · by_cases h2 : strstr f "mac_src" = true
    · obtain ⟨v, hval⟩ := Option.ne_none_iff_exists'.mp (hv (by simp [h2]))
      simp only [hval]
      cases h : lib.rte_ether_unformat_addr v <;> simp [h1, h2, rule_texts, hf, hval]
    · simp [h1, h2]

theorem prepare_filter_actions_texts (lib : Lib) :
    ∀ rules : List filter_rule_t,
      (∀ r ∈ rules, ∃ f, r.field = some f
        ∧ ((strstr f "ip_dst" || strstr f "mac_src") = true → r.value ≠ none)) →
      ∃ out, prepare_filter_actions lib rules = some out
        ∧ out.map rule_texts = rules.map rule_texts := by
  intro rules
  induction rules with
  | nil => intro _; exact ⟨[], rfl, rfl⟩
  | cons r rest ih =>
    intro h
    obtain ⟨f, hf, hv⟩ := h r (List.mem_cons_self _ _)
    obtain ⟨r1, hr1, ht1⟩ := prepare_rule_texts lib r f hf hv
    obtain ⟨out, hout, htout⟩ := ih (fun x hx => h x (List.mem_cons_of_mem _ hx))
    exact ⟨r1 :: out, by simp [prepare_filter_actions, hr1, hout], by simp [ht1, htout]⟩

theorem entry_buildable_object (obj : json_t) (h : entry_buildable obj = true) :
    json_is_object obj = true := by
  cases obj <;> simp_all [entry_buildable, json_object_get, json_string_value, json_is_object]

theorem entry_rule_texts (obj : json_t) (hobj : json_is_object obj = true) :
    rule_texts (entry_rule obj) = entry_texts obj := by
  simp only [entry_rule, hobj, if_true, fill_rule, rule_texts, entry_texts, set_json_string,
    zero_rule]
  cases json_string_value (json_object_get obj "action") <;>
  cases json_string_value (json_object_get obj "field") <;>
  cases json_string_value (json_object_get obj "value") <;> rfl

/-- The build on the payload of one entry with the three texts given. -/
theorem set_filter_rules_single (lib : Lib) (st : rules_state) (a f v : String) :
    set_filter_rules lib true true st (json_t.array [rule_entry a f v])
      = (prepare_rule lib ⟨some a, some f, some v, zero_ether_addr, 0⟩).map
          (fun r => (0, set_new_rules st (some [r]))) := by
  simp only [set_filter_rules, json_array_size, json_array_items, List.length_singleton]
  simp [fill_rules, rule_entry, json_is_object, fill_rule, set_json_string, json_object_get,
    members_get, json_string_value, zero_rule, prepare_filter_actions]
  cases prepare_rule lib ⟨some a, some f, some v, zero_ether_addr, 0⟩ <;> rfl

/-! ## Claims on the table build -/

/-- C4, as stated, fails: the payload `[{"field": "x"}]` has no well-formed entry,
yet `set_filter_rules` returns 0 and replaces the published table by a table of one
rule without action and value. -/
theorem set_filter_rules_no_well_formed_entry_publishes :
    ([json_t.object [("field", json_t.string "x")]].filter well_formed_entry).length = 0 ∧
    set_filter_rules ref_lib true true ⟨some earlier_table, []⟩
        (json_t.array [json_t.object [("field", json_t.string "x")]])
      = some (0, ⟨some [⟨none, some "x", none, zero_ether_addr, 0⟩], [earlier_table]⟩) := by
  decide

/-- C4, amended: on a payload of array size 0 (the empty sequence, or a value
that is not an array) `set_filter_rules` returns 1 and leaves the state as it
was, so a following classification gives what it gave before. -/
theorem set_filter_rules_empty (lib : Lib) (calloc1 calloc2 : Bool) (st : rules_state)
    (json_arrays : json_t) (pkts : List rte_mbuf) (h : json_array_size json_arrays = 0) :
    set_filter_rules lib calloc1 calloc2 st json_arrays = some (1, st) ∧
    (set_filter_rules lib calloc1 calloc2 st json_arrays).map
        (fun r => filter_pckts_cb r.2.filter_rules pkts)
      = some (filter_pckts_cb st.filter_rules pkts) := by
  have hret : set_filter_rules lib calloc1 calloc2 st json_arrays = some (1, st) := by
    simp [set_filter_rules, h]
  exact ⟨hret, by rw [hret]; rfl⟩

/-- Instance of the amended C4: the empty array, with a table published before. -/
theorem set_filter_rules_empty_witness :
    json_array_size (json_t.array []) = 0 ∧
    (set_filter_rules ref_lib true true ⟨some earlier_table, []⟩ (json_t.array [])
        = some (1, ⟨some earlier_table, []⟩) ∧
      (set_filter_rules ref_lib true true ⟨some earlier_table, []⟩ (json_t.array [])).map
          (fun r => filter_pckts_cb r.2.filter_rules scenario_batch)
        = some (filter_pckts_cb (some earlier_table) scenario_batch)) :=
  ⟨rfl, set_filter_rules_empty ref_lib true true ⟨some earlier_table, []⟩ (json_t.array [])
    scenario_batch rfl⟩

/-- An entry without action and value text keeps its slot in the table: the
payload `[{"action": "drop", "field": "ip_dst", "value": "10.0.0.1"}, {"field": "x"}]`
is built into a table of two rules. -/
theorem set_filter_rules_keeps_malformed_entry :
    ([rule_entry "drop" "ip_dst" "10.0.0.1",
        json_t.object [("field", json_t.string "x")]].filter well_formed_entry).length = 1 ∧
    set_filter_rules ref_lib true true initial_rules_state
        (json_t.array [rule_entry "drop" "ip_dst" "10.0.0.1",
          json_t.object [("field", json_t.string "x")]])
      = some (0, ⟨some [scenario_rule, ⟨none, some "x", none, zero_ether_addr, 0⟩], []⟩) := by
  decide

/-- On a non-empty payload (fewer than 65536 entries) whose entries all have the
texts that the compiler reads, `set_filter_rules` returns 0 and publishes a table
with one rule per entry, in the order of the entries, each rule with the action,
field and value text of its entry.  A well-formed entry is such an entry, and its
rule carries its three texts. -/
theorem set_filter_rules_one_rule_per_entry (lib : Lib) (st : rules_state)
    (items : List json_t) (hne : items ≠ []) (hlen : items.length < 65536)
    (hall : ∀ obj ∈ items, entry_buildable obj = true) :
    ∃ table, set_filter_rules lib true true st (json_t.array items)
        = some (0, set_new_rules st (some table)) ∧
      table.length = items.length ∧
      table.map rule_texts = items.map entry_texts := by
  have hpos : 0 < items.length := List.length_pos.mpr hne
  have hnum : items.length % 65536 = items.length := Nat.mod_eq_of_lt hlen
  have hfill := fill_rules_eq items []
  simp only [List.length_nil, List.nil_append] at hfill
  have hobj : ∀ obj ∈ items, json_is_object obj = true :=
    fun obj hmem => entry_buildable_object obj (hall obj hmem)
  have htexts : (items.map entry_rule).map rule_texts = items.map entry_texts := by
    rw [List.map_map]
    apply List.map_congr_left
    intro obj hmem
    exact entry_rule_texts obj (hobj obj hmem)
  have hprep : ∀ r ∈ items.map entry_rule, ∃ f, r.field = some f
      ∧ ((strstr f "ip_dst" || strstr f "mac_src") = true → r.value ≠ none) := by
    intro r hr
    obtain ⟨obj, hmem, rfl⟩ := List.mem_map.mp hr
    have hb := hall obj hmem
    have ht := entry_rule_texts obj (hobj obj hmem)
    simp only [rule_texts, entry_texts, Prod.mk.injEq] at ht
    unfold entry_buildable at hb
    cases hfield : json_string_value (json_object_get obj "field") with
    | none => simp [hfield] at hb
    | some f =>
      refine ⟨f, by rw [ht.2.1, hfield], ?_⟩
      intro hs
      simp only [hfield, hs, if_true] at hb
      rw [ht.2.2]
      exact Option.isSome_iff_ne_none.mp hb
  obtain ⟨out, hout, hmap⟩ := prepare_filter_actions_texts lib (items.map entry_rule) hprep
  refine ⟨out, ?_, ?_, ?_⟩
  · have hz : ¬ items.length = 0 := by omega
    simp [set_filter_rules, json_array_size, json_array_items, hnum, hz, hfill, hout]
  · have := congrArg List.length hmap
    simpa using this
  · rw [hmap, htexts]

/-- One well-formed entry and one entry with an unknown field and no other text
give a table of two rules. -/
theorem set_filter_rules_one_rule_per_entry_witness :
    [rule_entry "drop" "ip_dst" "10.0.0.1", json_t.object [("field", json_t.string "x")]]
      ≠ [] ∧
    (∀ obj ∈ [rule_entry "drop" "ip_dst" "10.0.0.1",
        json_t.object [("field", json_t.string "x")]], entry_buildable obj = true) ∧
    ∃ table, set_filter_rules ref_lib true true initial_rules_state
        (json_t.array [rule_entry "drop" "ip_dst" "10.0.0.1",
          json_t.object [("field", json_t.string "x")]])
        = some (0, set_new_rules initial_rules_state (some table)) ∧
      table.length = [rule_entry "drop" "ip_dst" "10.0.0.1",
        json_t.object [("field", json_t.string "x")]].length ∧
      table.map rule_texts = [rule_entry "drop" "ip_dst" "10.0.0.1",
        json_t.object [("field", json_t.string "x")]].map entry_texts :=
  ⟨by simp, by decide,
    set_filter_rules_one_rule_per_entry ref_lib initial_rules_state
      [rule_entry "drop" "ip_dst" "10.0.0.1", json_t.object [("field", json_t.string "x")]]
      (by simp) (by decide) (by decide)⟩

/-- C5: a malformed entry next to a well-formed one aborts the build.  Each of the
three payloads has the well-formed entry `{drop, ip_dst, 10.0.0.1}` first; the
second entry is the number 1, or an object without field text, or a `mac_src`
object without value text.  The build does not return 0: it reaches
`strstr(rule->field, "ip_dst")` (line 75) with a `NULL` field, or
`rte_ether_unformat_addr` (line 91) with a `NULL` value, in
`prepare_filter_actions`, and the table published before stays in the slot. -/
theorem malformed_entry_aborts_build :
    ([rule_entry "drop" "ip_dst" "10.0.0.1", json_t.integer 1].filter
      well_formed_entry).length = 1 ∧
    set_filter_rules ref_lib true true ⟨some earlier_table, []⟩
        (json_t.array [rule_entry "drop" "ip_dst" "10.0.0.1", json_t.integer 1]) = none ∧
    set_filter_rules ref_lib true true ⟨some earlier_table, []⟩
        (json_t.array [rule_entry "drop" "ip_dst" "10.0.0.1",
          json_t.object [("action", json_t.string "drop"),
            ("value", json_t.string "10.0.0.2")]]) = none ∧
    set_filter_rules ref_lib true true ⟨some earlier_table, []⟩
        (json_t.array [rule_entry "drop" "ip_dst" "10.0.0.1",
          json_t.object [("action", json_t.string "drop"),
            ("field", json_t.string "mac_src")]]) = none ∧
    fill_rules [rule_entry "drop" "ip_dst" "10.0.0.1", json_t.integer 1] 0
        (List.replicate 2 zero_rule)
      = some [⟨some "drop", some "ip_dst", some "10.0.0.1", zero_ether_addr, 0⟩, zero_rule] ∧
    prepare_rule ref_lib zero_rule = none := by
  decide

/-- C6: an entry with a missing text is not survived.  With no field text, or no
value text on an `ip_dst` rule, or an entry that is not an object, the build
reaches `strstr` or `inet_aton` on a `NULL` text inside `prepare_filter_actions` and
has no result; with only the action text missing the build returns 0, and the next
classification reaches `strstr(rule->action, "drop")` on `NULL`, even on an empty
batch. -/
theorem missing_text_entry_is_dereferenced :
    set_filter_rules ref_lib true true initial_rules_state
        (json_t.array [json_t.object [("action", json_t.string "drop"),
          ("value", json_t.string "10.0.0.1")]]) = none ∧
    set_filter_rules ref_lib true true initial_rules_state
        (json_t.array [json_t.object [("action", json_t.string "drop"),
          ("field", json_t.string "ip_dst")]]) = none ∧
    set_filter_rules ref_lib true true initial_rules_state
        (json_t.array [json_t.integer 1]) = none ∧
    set_filter_rules ref_lib true true initial_rules_state
        (json_t.array [json_t.object [("field", json_t.string "ip_dst"),
          ("value", json_t.string "10.0.0.1")]])
      = some (0, ⟨some [⟨none, some "ip_dst", some "10.0.0.1", zero_ether_addr, 0x0A000001⟩],
          []⟩) ∧
    filter_pckts_cb (some [⟨none, some "ip_dst", some "10.0.0.1", zero_ether_addr, 0x0A000001⟩])
        [] = none := by
  decide

/-! ## The reference parsers read back the canonical texts -/

theorem split_at_no_sep (sep : Char) :
    ∀ xs : List Char, (∀ c ∈ xs, c ≠ sep) → split_at sep xs = [xs] := by
  intro xs
  induction xs with
  | nil => intro _; rfl
  | cons c cs ih =>
    intro h
    have hc : c ≠ sep := h c (List.mem_cons_self _ _)
    have hcs := ih (fun x hx => h x (List.mem_cons_of_mem _ hx))
    simp [split_at, hc, hcs]

theorem split_at_append (sep : Char) (ys : List Char) :
    ∀ xs : List Char, (∀ c ∈ xs, c ≠ sep) →
      split_at sep (xs ++ sep :: ys) = xs :: split_at sep ys := by
  intro xs
  induction xs with
  | nil => intro _; simp [split_at]
  | cons c cs ih =>
    intro h
    have hc : c ≠ sep := h c (List.mem_cons_self _ _)
    have hcs := ih (fun x hx => h x (List.mem_cons_of_mem _ hx))
    simp [split_at, hc, hcs]

set_option maxRecDepth 100000 in
theorem dec_text_read_back :
    ∀ n, n < 256 → parse_dec_byte (dec_text n) = some n ∧ ∀ c ∈ dec_text n, c ≠ '.' := by
  decide

set_option maxRecDepth 100000 in
theorem hex_text_read_back :
    ∀ n, n < 256 → parse_hex_byte (hex_text n) = some n ∧ ∀ c ∈ hex_text n, c ≠ ':' := by
  decide

/-- The reference `inet_aton` reads every 32-bit address back from its
dotted-decimal text. -/
theorem ref_inet_aton_text (a : Nat) (h : a < 4294967296) :
    ref_lib.inet_aton (ipv4_text a) = some a := by
  have h3 := dec_text_read_back (a / 16777216 % 256) (Nat.mod_lt _ (by norm_num))
  have h2 := dec_text_read_back (a / 65536 % 256) (Nat.mod_lt _ (by norm_num))
  have h1 := dec_text_read_back (a / 256 % 256) (Nat.mod_lt _ (by norm_num))
  have h0 := dec_text_read_back (a % 256) (Nat.mod_lt _ (by norm_num))
  simp only [ref_lib, ref_inet_aton, ipv4_text, List.append_assoc, List.cons_append]
  rw [split_at_append _ _ _ h3.2, split_at_append _ _ _ h2.2, split_at_append _ _ _ h1.2,
    split_at_no_sep _ _ h0.2]
  simp only [List.map_cons, List.map_nil, h3.1, h2.1, h1.1, h0.1]
  congr 1
  omega

/-- The reference `rte_ether_unformat_addr` reads every address of six bytes back
from its six-octet hexadecimal text. -/
theorem ref_ether_unformat_addr_text (m : rte_ether_addr)
    (h : m.b0 < 256 ∧ m.b1 < 256 ∧ m.b2 < 256 ∧ m.b3 < 256 ∧ m.b4 < 256 ∧ m.b5 < 256) :
    ref_lib.rte_ether_unformat_addr (mac_text m) = some m := by
  obtain ⟨g0, g1, g2, g3, g4, g5⟩ := h
  have k0 := hex_text_read_back m.b0 g0
  have k1 := hex_text_read_back m.b1 g1
  have k2 := hex_text_read_back m.b2 g2
  have k3 := hex_text_read_back m.b3 g3
  have k4 := hex_text_read_back m.b4 g4
  have k5 := hex_text_read_back m.b5 g5
  simp only [ref_lib, ref_ether_unformat_addr, mac_text, List.append_assoc, List.cons_append]
  rw [split_at_append _ _ _ k0.2, split_at_append _ _ _ k1.2, split_at_append _ _ _ k2.2,
    split_at_append _ _ _ k3.2, split_at_append _ _ _ k4.2, split_at_no_sep _ _ k5.2]
  simp only [List.map_cons, List.map_nil, k0.1, k1.1, k2.1, k3.1, k4.1, k5.1]

/-! ## Compiled rules and the packets they match -/

theorem strstr_drop : strstr "drop" "drop" = true := by decide

theorem strstr_ip_dst : strstr "ip_dst" "ip_dst" = true := by decide

theorem strstr_mac_src : strstr "mac_src" "mac_src" = true := by decide

theorem strstr_mac_src_ip_dst : strstr "mac_src" "ip_dst" = false := by decide

theorem rule_matches_ip_dst (v : Option String) (m : rte_ether_addr) (a : Nat) (p : rte_mbuf) :
    rule_matches ⟨some "drop", some "ip_dst", v, m, a⟩ p
      = (RTE_ETH_IS_IPV4_HDR p.packet_type && decide (p.ipv4_dst = a)) := by
  simp [rule_matches, strstr_drop, strstr_ip_dst]

theorem rule_matches_mac_src (v : Option String) (m : rte_ether_addr) (a : Nat) (p : rte_mbuf) :
    rule_matches ⟨some "drop", some "mac_src", v, m, a⟩ p = decide (p.eth_dst = m) := by
  simp [rule_matches, strstr_drop, strstr_mac_src, strstr_mac_src_ip_dst]

theorem texts_present_single (a f : String) (v : Option String) (m : rte_ether_addr) (x : Nat) :
    texts_present [⟨some a, some f, v, m, x⟩] := by
  intro r hr
  simp only [List.mem_singleton] at hr
  subst hr
  simp

theorem prepare_rule_ip_dst (lib : Lib) (a v : String) :
    prepare_rule lib ⟨some a, some "ip_dst", some v, zero_ether_addr, 0⟩
      = some ⟨some a, some "ip_dst", some v, zero_ether_addr, (lib.inet_aton v).getD 0⟩ := by
  cases h : lib.inet_aton v <;> simp [prepare_rule, strstr_ip_dst, h]

theorem prepare_rule_mac_src (lib : Lib) (a v : String) :
    prepare_rule lib ⟨some a, some "mac_src", some v, zero_ether_addr, 0⟩
      = some ⟨some a, some "mac_src", some v,
          (lib.rte_ether_unformat_addr v).getD zero_ether_addr, 0⟩ := by
  cases h : lib.rte_ether_unformat_addr v <;>
    simp [prepare_rule, strstr_mac_src, strstr_mac_src_ip_dst, h]

/-- C7, as stated, fails: the rule compiled from `{drop, mac_src, "not-a-mac"}`
matches a packet whose Ethernet destination is `00:00:00:00:00:00`, and the rule
compiled from `{drop, ip_dst, "bogus"}` matches an IPv4 packet for 0.0.0.0; in both
cases the batch is released and 0 is returned. -/
theorem zero_address_matches_unparsable_rule :
    ref_lib.rte_ether_unformat_addr "not-a-mac" = none ∧
    set_filter_rules ref_lib true true initial_rules_state
        (json_t.array [rule_entry "drop" "mac_src" "not-a-mac"])
      = some (0, ⟨some [⟨some "drop", some "mac_src", some "not-a-mac", zero_ether_addr, 0⟩],
          []⟩) ∧
    filter_pckts_cb (some [⟨some "drop", some "mac_src", some "not-a-mac", zero_ether_addr, 0⟩])
        [ether_packet zero_ether_addr]
      = some ⟨0, [[ether_packet zero_ether_addr]]⟩ ∧
    ref_lib.inet_aton "bogus" = none ∧
    set_filter_rules ref_lib true true initial_rules_state
        (json_t.array [rule_entry "drop" "ip_dst" "bogus"])
      = some (0, ⟨some [⟨some "drop", some "ip_dst", some "bogus", zero_ether_addr, 0⟩], []⟩) ∧
    filter_pckts_cb (some [⟨some "drop", some "ip_dst", some "bogus", zero_ether_addr, 0⟩])
        [ipv4_packet 0]
      = some ⟨0, [[ipv4_packet 0]]⟩ := by
  decide

/-- C7, amended: a drop rule whose value text fails to parse compiles without
error (the build returns 0) and, alone in the table, leaves every batch untouched
that holds no packet with the all-zero destination.  For an `ip_dst` rule these are
the batches with no IPv4 packet for 0.0.0.0, whatever the Ethernet addresses; for a
`mac_src` rule the batches with no packet whose Ethernet destination is
`00:00:00:00:00:00`, whatever the IPv4 addresses. -/
theorem unparsable_value_rule (lib : Lib) (st : rules_state) (ip_value mac_value : String)
    (ip_pkts mac_pkts : List rte_mbuf) :
    (lib.inet_aton ip_value = none →
      (∀ p ∈ ip_pkts, ¬ (RTE_ETH_IS_IPV4_HDR p.packet_type = true ∧ p.ipv4_dst = 0)) →
      ∃ rule, set_filter_rules lib true true st
          (json_t.array [rule_entry "drop" "ip_dst" ip_value])
          = some (0, set_new_rules st (some [rule])) ∧
        filter_pckts_cb (some [rule]) ip_pkts = some ⟨ip_pkts.length, []⟩) ∧
    (lib.rte_ether_unformat_addr mac_value = none →
      (∀ p ∈ mac_pkts, p.eth_dst ≠ zero_ether_addr) →
      ∃ rule, set_filter_rules lib true true st
          (json_t.array [rule_entry "drop" "mac_src" mac_value])
          = some (0, set_new_rules st (some [rule])) ∧
        filter_pckts_cb (some [rule]) mac_pkts = some ⟨mac_pkts.length, []⟩) := by
  constructor
  · intro hip hpk_ip
    refine ⟨⟨some "drop", some "ip_dst", some ip_value, zero_ether_addr, 0⟩, ?_, ?_⟩
    · rw [set_filter_rules_single, prepare_rule_ip_dst, hip]; rfl
    · rw [filter_pckts_cb_eq _ _ (texts_present_single _ _ _ _ _)]
      have hno : ip_pkts.any (rule_matches
          ⟨some "drop", some "ip_dst", some ip_value, zero_ether_addr, 0⟩) = false := by
        rw [List.any_eq_false]
        intro p hp
        rw [rule_matches_ip_dst]
        simpa using hpk_ip p hp
      simp [hno]
  · intro hmac hpk_mac
    refine ⟨⟨some "drop", some "mac_src", some mac_value, zero_ether_addr, 0⟩, ?_, ?_⟩
    · rw [set_filter_rules_single, prepare_rule_mac_src, hmac]; rfl
    · rw [filter_pckts_cb_eq _ _ (texts_present_single _ _ _ _ _)]
      have hno : mac_pkts.any (rule_matches
          ⟨some "drop", some "mac_src", some mac_value, zero_ether_addr, 0⟩) = false := by
        rw [List.any_eq_false]
        intro p hp
        rw [rule_matches_mac_src]
        simpa using hpk_mac p hp
      simp [hno]

/-- Instance of the amended C7: the rule from the IPv4 text "bogus" passes a batch
that holds a packet, not IPv4, with Ethernet destination `00:00:00:00:00:00`, and
the rule from the MAC text "not-a-mac" passes a batch that holds an IPv4 packet for
0.0.0.0 with a non-zero Ethernet destination. -/
theorem unparsable_value_rule_witness :
    ref_lib.inet_aton "bogus" = none ∧
    (∀ p ∈ [ether_packet zero_ether_addr],
      ¬ (RTE_ETH_IS_IPV4_HDR p.packet_type = true ∧ p.ipv4_dst = 0)) ∧
    ref_lib.rte_ether_unformat_addr "not-a-mac" = none ∧
    (∀ p ∈ [ipv4_packet 0], p.eth_dst ≠ zero_ether_addr) ∧
    (∃ rule, set_filter_rules ref_lib true true initial_rules_state
          (json_t.array [rule_entry "drop" "ip_dst" "bogus"])
          = some (0, set_new_rules initial_rules_state (some [rule])) ∧
        filter_pckts_cb (some [rule]) [ether_packet zero_ether_addr]
          = some ⟨[ether_packet zero_ether_addr].length, []⟩) ∧
    (∃ rule, set_filter_rules ref_lib true true initial_rules_state
          (json_t.array [rule_entry "drop" "mac_src" "not-a-mac"])
          = some (0, set_new_rules initial_rules_state (some [rule])) ∧
        filter_pckts_cb (some [rule]) [ipv4_packet 0] = some ⟨[ipv4_packet 0].length, []⟩) :=
  ⟨by decide, by decide, by decide, by decide,
    (unparsable_value_rule ref_lib initial_rules_state "bogus" "not-a-mac"
      [ether_packet zero_ether_addr] [ipv4_packet 0]).1 (by decide) (by decide),
    (unparsable_value_rule ref_lib initial_rules_state "bogus" "not-a-mac"
      [ether_packet zero_ether_addr] [ipv4_packet 0]).2 (by decide) (by decide)⟩

/-- C8: for every address `a` that `inet_aton` reads from its dotted-decimal text,
the build of `[{drop, ip_dst, text of a}]` returns 0 and publishes one rule, which
matches a packet exactly when the packet is identified as IPv4 and its destination
address is `a`; a batch is released, with result 0, exactly when it holds such a
packet, and is otherwise returned whole. -/
theorem ip_dst_round_trip (lib : Lib) (st : rules_state) (a : Nat)
    (h : lib.inet_aton (ipv4_text a) = some a) :
    ∃ rule, set_filter_rules lib true true st
        (json_t.array [rule_entry "drop" "ip_dst" (ipv4_text a)])
        = some (0, set_new_rules st (some [rule])) ∧
      (∀ p, rule_matches rule p = true
        ↔ (RTE_ETH_IS_IPV4_HDR p.packet_type = true ∧ p.ipv4_dst = a)) ∧
      (∀ pkts, filter_pckts_cb (some [rule]) pkts
        = some (if pkts.any (fun p => RTE_ETH_IS_IPV4_HDR p.packet_type
                    && decide (p.ipv4_dst = a)) = true
                then ⟨0, [pkts]⟩ else ⟨pkts.length, []⟩)) := by
  refine ⟨⟨some "drop", some "ip_dst", some (ipv4_text a), zero_ether_addr, a⟩, ?_, ?_, ?_⟩
  · rw [set_filter_rules_single, prepare_rule_ip_dst, h]; rfl
  · intro p
    rw [rule_matches_ip_dst]
    simp
  · intro pkts
    rw [filter_pckts_cb_eq _ _ (texts_present_single _ _ _ _ _)]
    have hfun : rule_matches ⟨some "drop", some "ip_dst", some (ipv4_text a), zero_ether_addr, a⟩
        = fun p => RTE_ETH_IS_IPV4_HDR p.packet_type && decide (p.ipv4_dst = a) := by
      funext p
      exact rule_matches_ip_dst _ _ _ p
    simp [hfun]

/-- Instance of C8 at 192.168.0.1: the compiled rule releases an IPv4 packet for
192.168.0.1 and passes an IPv4 packet for 192.168.0.2. -/
theorem ip_dst_round_trip_witness :
    ref_lib.inet_aton (ipv4_text 0xC0A80001) = some 0xC0A80001 ∧
    ipv4_text 0xC0A80001 = "192.168.0.1" ∧
    filter_pckts_cb (some [⟨some "drop", some "ip_dst", some "192.168.0.1", zero_ether_addr,
        0xC0A80001⟩]) [ipv4_packet 0xC0A80001] = some ⟨0, [[ipv4_packet 0xC0A80001]]⟩ ∧
    filter_pckts_cb (some [⟨some "drop", some "ip_dst", some "192.168.0.1", zero_ether_addr,
        0xC0A80001⟩]) [ipv4_packet 0xC0A80002] = some ⟨1, []⟩ ∧
    ∃ rule, set_filter_rules ref_lib true true initial_rules_state
        (json_t.array [rule_entry "drop" "ip_dst" (ipv4_text 0xC0A80001)])
        = some (0, set_new_rules initial_rules_state (some [rule])) ∧
      (∀ p, rule_matches rule p = true
        ↔ (RTE_ETH_IS_IPV4_HDR p.packet_type = true ∧ p.ipv4_dst = 0xC0A80001)) ∧
      (∀ pkts, filter_pckts_cb (some [rule]) pkts
        = some (if pkts.any (fun p => RTE_ETH_IS_IPV4_HDR p.packet_type
                    && decide (p.ipv4_dst = 0xC0A80001)) = true
                then ⟨0, [pkts]⟩ else ⟨pkts.length, []⟩)) :=
  ⟨by decide, by decide, by decide, by decide,
    ip_dst_round_trip ref_lib initial_rules_state 0xC0A80001 (by decide)⟩

/-- C9: for every address `m` that `rte_ether_unformat_addr` reads from its
six-octet hexadecimal text, the build of `[{drop, mac_src, text of m}]` returns 0
and publishes one rule, which matches a packet exactly when the Ethernet
destination address of the packet is `m`, whatever its source address and packet
type; a batch is released, with result 0, exactly when it holds such a packet. -/
theorem mac_src_round_trip (lib : Lib) (st : rules_state) (m : rte_ether_addr)
    (h : lib.rte_ether_unformat_addr (mac_text m) = some m) :
    ∃ rule, set_filter_rules lib true true st
        (json_t.array [rule_entry "drop" "mac_src" (mac_text m)])
        = some (0, set_new_rules st (some [rule])) ∧
      (∀ p, rule_matches rule p = true ↔ p.eth_dst = m) ∧
      (∀ pkts, filter_pckts_cb (some [rule]) pkts
        = some (if pkts.any (fun p => decide (p.eth_dst = m)) = true
                then ⟨0, [pkts]⟩ else ⟨pkts.length, []⟩)) := by
  refine ⟨⟨some "drop", some "mac_src", some (mac_text m), m, 0⟩, ?_, ?_, ?_⟩
  · rw [set_filter_rules_single, prepare_rule_mac_src, h]; rfl
  · intro p
    rw [rule_matches_mac_src]
    simp
  · intro pkts
    rw [filter_pckts_cb_eq _ _ (texts_present_single _ _ _ _ _)]
    have hfun : rule_matches ⟨some "drop", some "mac_src", some (mac_text m), m, 0⟩
        = fun p => decide (p.eth_dst = m) := by
      funext p
      exact rule_matches_mac_src _ _ _ p
    simp [hfun]

/-- Instance of C9 at `11:22:33:44:55:66`: the compiled rule releases a packet
with that Ethernet destination, IPv4 or not, and passes a packet that only has it
as its source. -/
theorem mac_src_round_trip_witness :
    ref_lib.rte_ether_unformat_addr (mac_text ⟨0x11, 0x22, 0x33, 0x44, 0x55, 0x66⟩)
      = some ⟨0x11, 0x22, 0x33, 0x44, 0x55, 0x66⟩ ∧
    mac_text ⟨0x11, 0x22, 0x33, 0x44, 0x55, 0x66⟩ = "11:22:33:44:55:66" ∧
    filter_pckts_cb (some earlier_table) [ether_packet ⟨0x11, 0x22, 0x33, 0x44, 0x55, 0x66⟩]
      = some ⟨0, [[ether_packet ⟨0x11, 0x22, 0x33, 0x44, 0x55, 0x66⟩]]⟩ ∧
    filter_pckts_cb (some earlier_table)
        [{ ether_packet ⟨2, 0, 0, 0, 0, 1⟩ with eth_src := ⟨0x11, 0x22, 0x33, 0x44, 0x55, 0x66⟩ }]
      = some ⟨1, []⟩ ∧
    ∃ rule, set_filter_rules ref_lib true true initial_rules_state
        (json_t.array [rule_entry "drop" "mac_src"
          (mac_text ⟨0x11, 0x22, 0x33, 0x44, 0x55, 0x66⟩)])
        = some (0, set_new_rules initial_rules_state (some [rule])) ∧
      (∀ p, rule_matches rule p = true ↔ p.eth_dst = ⟨0x11, 0x22, 0x33, 0x44, 0x55, 0x66⟩) ∧
      (∀ pkts, filter_pckts_cb (some [rule]) pkts
        = some (if pkts.any (fun p => decide (p.eth_dst = ⟨0x11, 0x22, 0x33, 0x44, 0x55, 0x66⟩))
                    = true
                then ⟨0, [pkts]⟩ else ⟨pkts.length, []⟩)) :=
  ⟨by decide, by decide, by decide, by decide,
    mac_src_round_trip ref_lib initial_rules_state ⟨0x11, 0x22, 0x33, 0x44, 0x55, 0x66⟩
      (by decide)⟩

/-! ## Interleaving of publish and classification -/

/-- A held lock makes `set_new_rules` wait at `rte_spinlock_lock`. -/
theorem lock_held_blocks_swap (num : Nat) (s : il_state) (tmp : Option Nat) (new : Nat)
    (hl : s.locked = true) (hc : s.ctl = ctl_pc.saved tmp new) : ctl_step num s = none := by
  simp [ctl_step, hc, hl]

/-- C10: the lock does not keep a publish out of a running classification.
From the state with table 0 published, the classifier takes the lock and starts its
scan; `filter_set` then re-initialises the lock (`rte_spinlock_init`), takes it,
swaps the slot, and releases table 0; the classifier, still in its scan, reads its
next rule from the released table. -/
theorem publish_during_classification :
    il_run il_schedule il_published = some
      { locked := false, filter_rules := some 1, sizes := [2, 1], released := [0],
        cls := cls_pc.scanning 0 2, ctl := ctl_pc.idle, stale_reads := 1 } := by
  decide

/-! ## Rules that the classifier passes over -/

theorem rule_loop_append (pkts : List rte_mbuf) :
    ∀ (xs ys : List filter_rule_t) (st : cb_state),
      rule_loop pkts (xs ++ ys) st
        = match rule_loop pkts xs st with
          | none => none
          | some st1 => rule_loop pkts ys st1 := by
  intro xs
  induction xs with
  | nil => intro ys st; rfl
  | cons r xs ih =>
    intro ys st
    simp only [List.cons_append, rule_loop]
    cases r.action with
    | none => rfl
    | some a =>
      simp only
      by_cases hd : strstr a "drop" = true
      · simp only [hd, if_true]
        cases pkt_loop r pkts pkts 0 st with
        | none => rfl
        | some st1 => exact ih ys st1
      · simp only [hd]
        exact ih ys st

theorem pkt_body_le (rule : filter_rule_t) (pkts : List rte_mbuf) (p : rte_mbuf)
    (st st1 : cb_state) (h : pkt_body rule pkts p st = some st1) :
    st1.nb_pkts ≤ st.nb_pkts := by
  unfold pkt_body at h
  cases hf : rule.field with
  | none => simp [hf] at h
  | some f =>
    simp only [hf] at h
    split_ifs at h <;> simp only [Option.some.injEq] at h <;> subst h <;> simp [free_batch]

theorem pkt_loop_le (rule : filter_rule_t) (pkts : List rte_mbuf) :
    ∀ (rest : List rte_mbuf) (i : Nat) (st st1 : cb_state),
      pkt_loop rule pkts rest i st = some st1 → st1.nb_pkts ≤ st.nb_pkts := by
  intro rest
  induction rest with
  | nil =>
    intro i st st1 h
    simp only [pkt_loop] at h
    split_ifs at h
    simp only [Option.some.injEq] at h
    subst h
    exact le_refl _
  | cons p rest ih =>
    intro i st st1 h
    simp only [pkt_loop] at h
    split_ifs at h
    · cases hb : pkt_body rule pkts p st with
      | none => simp [hb] at h
      | some st2 =>
        simp only [hb] at h
        exact le_trans (ih (i + 1) st2 st1 h) (pkt_body_le rule pkts p st st2 hb)
    · simp only [Option.some.injEq] at h
      subst h
      exact le_refl _

theorem rule_loop_le (pkts : List rte_mbuf) :
    ∀ (rules : List filter_rule_t) (st st1 : cb_state),
      rule_loop pkts rules st = some st1 → st1.nb_pkts ≤ st.nb_pkts := by
  intro rules
  induction rules with
  | nil =>
    intro st st1 h
    simp only [rule_loop, Option.some.injEq] at h
    subst h
    exact le_refl _
  | cons r rules ih =>
    intro st st1 h
    simp only [rule_loop] at h
    cases ha : r.action with
    | none => simp [ha] at h
    | some a =>
      simp only [ha] at h
      split_ifs at h
      · cases hp : pkt_loop r pkts pkts 0 st with
        | none => simp [hp] at h
        | some st2 =>
          simp only [hp] at h
          exact le_trans (ih st2 st1 h) (pkt_loop_le r pkts pkts 0 st st2 hp)
      · exact ih st st1 h

theorem pkt_loop_unknown_field (rule : filter_rule_t) (pkts : List rte_mbuf) (f : String)
    (hf : rule.field = some f) (h1 : strstr f "ip_dst" = false)
    (h2 : strstr f "mac_src" = false) :
    ∀ (rest : List rte_mbuf) (i : Nat) (st : cb_state), st.nb_pkts ≤ i + rest.length →
      pkt_loop rule pkts rest i st = some st := by
  intro rest
  induction rest with
  | nil =>
    intro i st h
    have : ¬ i < st.nb_pkts := by simp at h; omega
    simp [pkt_loop, this]
  | cons p rest ih =>
    intro i st h
    have hb : pkt_body rule pkts p st = some st := by
      simp [pkt_body, hf, h1, h2]
    simp only [pkt_loop, hb]
    split_ifs
    · exact ih (i + 1) st (by simp at h; omega)
    · rfl

/-- A rule whose action text does not hold "drop" can be taken out of any table
without changing the outcome of a call. -/
theorem rule_loop_skip_action (pkts : List rte_mbuf) (r : filter_rule_t) (a : String)
    (ha : r.action = some a) (hd : strstr a "drop" = false)
    (pre post : List filter_rule_t) (st : cb_state) :
    rule_loop pkts (pre ++ r :: post) st = rule_loop pkts (pre ++ post) st := by
  rw [rule_loop_append, rule_loop_append]
  cases rule_loop pkts pre st with
  | none => rfl
  | some st1 => simp [rule_loop, ha, hd]

/-- A rule whose field text holds neither "ip_dst" nor "mac_src" can be taken out of
any table without changing the outcome of a call. -/
theorem rule_loop_skip_field (pkts : List rte_mbuf) (r : filter_rule_t) (a f : String)
    (ha : r.action = some a) (hf : r.field = some f) (h1 : strstr f "ip_dst" = false)
    (h2 : strstr f "mac_src" = false) (pre post : List filter_rule_t) (st : cb_state)
    (hst : st.nb_pkts ≤ pkts.length) :
    rule_loop pkts (pre ++ r :: post) st = rule_loop pkts (pre ++ post) st := by
  rw [rule_loop_append, rule_loop_append]
  cases hpre : rule_loop pkts pre st with
  | none => rfl
  | some st1 =>
    have hle : st1.nb_pkts ≤ pkts.length := le_trans (rule_loop_le pkts pre st st1 hpre) hst
    have hloop := pkt_loop_unknown_field r pkts f hf h1 h2 pkts 0 st1 (by omega)
    simp only [rule_loop, ha, hloop]
    split_ifs <;> rfl

/-! ## Claims on the texts the classifier recognises -/

/-- C13, as stated, fails: the action text "dont_drop" is not "drop", yet the rule
built from `{dont_drop, ip_dst, 10.0.0.1}` releases the batch of the scenario and
makes the call return 0. -/
theorem action_other_than_drop_discards :
    dont_drop_rule.action ≠ some "drop" ∧
    set_filter_rules ref_lib true true initial_rules_state
        (json_t.array [rule_entry "dont_drop" "ip_dst" "10.0.0.1"])
      = some (0, ⟨some [dont_drop_rule], []⟩) ∧
    filter_pckts_cb (some [dont_drop_rule]) scenario_batch = some ⟨0, [scenario_batch]⟩ := by
  decide

/-- C13, amended: a rule whose action text does not hold "drop" as a substring
never causes a batch to be discarded, whatever its field and value are: alone in
the table it leaves every batch whole, and at any place of any table the call gives
what it gives on the table without that rule. -/
theorem action_without_drop_never_discards (r : filter_rule_t) (a : String)
    (pre post : List filter_rule_t) (pkts : List rte_mbuf)
    (ha : r.action = some a) (hd : strstr a "drop" = false) :
    filter_pckts_cb (some [r]) pkts = some ⟨pkts.length, []⟩ ∧
    filter_pckts_cb (some (pre ++ r :: post)) pkts
      = filter_pckts_cb (some (pre ++ post)) pkts := by
  constructor
  · simp [filter_pckts_cb, rule_loop, ha, hd]
  · simp only [filter_pckts_cb]
    exact rule_loop_skip_action pkts r a ha hd pre post _

/-- Instance of the amended C13: a rule with action text "pass" that names the
destination of the third packet of the scenario, before a drop rule. -/
theorem action_without_drop_never_discards_witness :
    (⟨some "pass", some "ip_dst", some "10.0.0.1", zero_ether_addr, 0x0A000001⟩
      : filter_rule_t).action = some "pass" ∧
    strstr "pass" "drop" = false ∧
    (filter_pckts_cb (some [⟨some "pass", some "ip_dst", some "10.0.0.1", zero_ether_addr,
        0x0A000001⟩]) scenario_batch = some ⟨scenario_batch.length, []⟩ ∧
    filter_pckts_cb (some ([] ++ ⟨some "pass", some "ip_dst", some "10.0.0.1", zero_ether_addr,
        0x0A000001⟩ :: earlier_table)) scenario_batch
      = filter_pckts_cb (some ([] ++ earlier_table)) scenario_batch) :=
  ⟨rfl, by decide,
    action_without_drop_never_discards
      ⟨some "pass", some "ip_dst", some "10.0.0.1", zero_ether_addr, 0x0A000001⟩ "pass"
      [] earlier_table scenario_batch rfl (by decide)⟩

/-- C14: an entry whose field text holds neither "ip_dst" nor "mac_src" is accepted
by the build, which returns 0 and stores the rule with its three texts, and the
rule matches no packet: alone in the table it leaves every batch whole, and at any
place of any table the call gives what it gives on the table without that rule. -/
theorem unknown_field_never_matches (lib : Lib) (st : rules_state) (a f v : String)
    (pre post : List filter_rule_t) (pkts : List rte_mbuf)
    (h1 : strstr f "ip_dst" = false) (h2 : strstr f "mac_src" = false) :
    set_filter_rules lib true true st (json_t.array [rule_entry a f v])
      = some (0, set_new_rules st (some [⟨some a, some f, some v, zero_ether_addr, 0⟩])) ∧
    (∀ p, rule_matches ⟨some a, some f, some v, zero_ether_addr, 0⟩ p = false) ∧
    filter_pckts_cb (some [⟨some a, some f, some v, zero_ether_addr, 0⟩]) pkts
      = some ⟨pkts.length, []⟩ ∧
    filter_pckts_cb (some (pre ++ ⟨some a, some f, some v, zero_ether_addr, 0⟩ :: post)) pkts
      = filter_pckts_cb (some (pre ++ post)) pkts := by
  refine ⟨?_, ?_, ?_, ?_⟩
  · rw [set_filter_rules_single]
    simp [prepare_rule, h1, h2]
  · intro p
    simp [rule_matches, h1, h2]
  · have h := rule_loop_skip_field pkts ⟨some a, some f, some v, zero_ether_addr, 0⟩ a f
      rfl rfl h1 h2 [] [] ⟨pkts.length, []⟩ (le_refl _)
    simpa [filter_pckts_cb, rule_loop] using h
  · simp only [filter_pckts_cb]
    exact rule_loop_skip_field pkts _ a f rfl rfl h1 h2 pre post _ (le_refl _)

/-- Instance of C14: the field text "port_dst", in a drop rule placed before the
rule of the scenario. -/
theorem unknown_field_never_matches_witness :
    strstr "port_dst" "ip_dst" = false ∧ strstr "port_dst" "mac_src" = false ∧
    (set_filter_rules ref_lib true true initial_rules_state
        (json_t.array [rule_entry "drop" "port_dst" "80"])
      = some (0, set_new_rules initial_rules_state
          (some [⟨some "drop", some "port_dst", some "80", zero_ether_addr, 0⟩])) ∧
    (∀ p, rule_matches ⟨some "drop", some "port_dst", some "80", zero_ether_addr, 0⟩ p = false) ∧
    filter_pckts_cb (some [⟨some "drop", some "port_dst", some "80", zero_ether_addr, 0⟩])
        scenario_batch = some ⟨scenario_batch.length, []⟩ ∧
    filter_pckts_cb (some ([] ++ ⟨some "drop", some "port_dst", some "80", zero_ether_addr, 0⟩
        :: [scenario_rule])) scenario_batch
      = filter_pckts_cb (some ([] ++ [scenario_rule])) scenario_batch) :=
  ⟨by decide, by decide,
    unknown_field_never_matches ref_lib initial_rules_state "drop" "port_dst" "80"
      [] [scenario_rule] scenario_batch (by decide) (by decide)⟩

/-! ## Independence of the order of rules and packets -/

theorem any_perm {α : Type} (f : α → Bool) (xs ys : List α) (h : xs.Perm ys) :
    xs.any f = ys.any f := by
  rw [Bool.eq_iff_iff, List.any_eq_true, List.any_eq_true]
  constructor
  · rintro ⟨x, hx, hfx⟩
    exact ⟨x, h.mem_iff.mp hx, hfx⟩
  · rintro ⟨x, hx, hfx⟩
    exact ⟨x, h.mem_iff.mpr hx, hfx⟩

theorem texts_present_perm (rules rules1 : List filter_rule_t) (h : rules.Perm rules1)
    (ht : texts_present rules) : texts_present rules1 :=
  fun r hr => ht r (h.mem_iff.mpr hr)

/-- The value a call returns on a table whose rules all have their texts. -/
theorem returned_count_eq (rules : List filter_rule_t) (pkts : List rte_mbuf)
    (h : texts_present rules) :
    returned_count (filter_pckts_cb (some rules) pkts)
      = some (if rules.any (fun r => pkts.any (rule_matches r)) = true then 0
              else pkts.length) := by
  rw [filter_pckts_cb_eq rules pkts h]
  by_cases hm : rules.any (fun r => pkts.any (rule_matches r)) = true <;>
    simp [returned_count, hm]

/-- C18: on a table whose rules all have their texts, the value returned by
`filter_pckts_cb` is the same after any permutation of the rules and any
permutation of the packets, and a rule added at any place of the table either
leaves the returned value as it was or makes it 0; a returned 0 stays 0. -/
theorem returned_count_order_independent (rules rules1 : List filter_rule_t)
    (pkts pkts1 : List rte_mbuf) (pre post : List filter_rule_t) (extra : filter_rule_t)
    (ht : texts_present rules) (hr : rules.Perm rules1) (hp : pkts.Perm pkts1)
    (hsplit : rules = pre ++ post) (hx : extra.action ≠ none ∧ extra.field ≠ none) :
    returned_count (filter_pckts_cb (some rules1) pkts1)
      = returned_count (filter_pckts_cb (some rules) pkts) ∧
    (returned_count (filter_pckts_cb (some (pre ++ extra :: post)) pkts) = some 0
      ∨ returned_count (filter_pckts_cb (some (pre ++ extra :: post)) pkts)
          = returned_count (filter_pckts_cb (some rules) pkts)) ∧
    (returned_count (filter_pckts_cb (some rules) pkts) = some 0
      → returned_count (filter_pckts_cb (some (pre ++ extra :: post)) pkts) = some 0) := by
  have ht1 : texts_present rules1 := texts_present_perm rules rules1 hr ht
  have hperm : (pre ++ extra :: post).Perm (extra :: rules) := by
    rw [hsplit]
    exact List.perm_middle
  have htx : texts_present (extra :: rules) := by
    intro r hmem
    rcases List.mem_cons.mp hmem with h | h
    · rw [h]; exact hx
    · exact ht r h
  have htm : texts_present (pre ++ extra :: post) :=
    texts_present_perm _ _ hperm.symm htx
  have hany1 : rules1.any (fun r => pkts1.any (rule_matches r))
      = rules.any (fun r => pkts.any (rule_matches r)) := by
    rw [any_perm _ rules1 rules hr.symm]
    congr 1
    funext r
    exact any_perm _ pkts1 pkts hp.symm
  have hanym : (pre ++ extra :: post).any (fun r => pkts.any (rule_matches r))
      = (pkts.any (rule_matches extra) || rules.any (fun r => pkts.any (rule_matches r))) := by
    rw [any_perm _ _ _ hperm]
    rfl
  rw [returned_count_eq rules1 pkts1 ht1, returned_count_eq rules pkts ht,
    returned_count_eq _ pkts htm, hany1, hanym, hp.length_eq.symm]
  refine ⟨rfl, ?_, ?_⟩
  · by_cases he : pkts.any (rule_matches extra) = true
    · left; simp [he]
    · right; simp [he]
  · intro h0
    by_cases he : pkts.any (rule_matches extra) = true
    · simp [he]
    · simpa [he] using h0

/-- Instance of C18: the table of the earlier rule and the rule of the scenario,
its reversal, the reversed batch, and the `dont_drop` rule added in the middle. -/
theorem returned_count_order_independent_witness :
    texts_present (earlier_table ++ [scenario_rule]) ∧
    (earlier_table ++ [scenario_rule]).Perm (scenario_rule :: earlier_table) ∧
    scenario_batch.Perm scenario_batch.reverse ∧
    (dont_drop_rule.action ≠ none ∧ dont_drop_rule.field ≠ none) ∧
    (returned_count (filter_pckts_cb (some (scenario_rule :: earlier_table))
        scenario_batch.reverse)
      = returned_count (filter_pckts_cb (some (earlier_table ++ [scenario_rule]))
          scenario_batch) ∧
    (returned_count (filter_pckts_cb (some (earlier_table ++ dont_drop_rule :: [scenario_rule]))
        scenario_batch) = some 0
      ∨ returned_count (filter_pckts_cb
            (some (earlier_table ++ dont_drop_rule :: [scenario_rule])) scenario_batch)
          = returned_count (filter_pckts_cb (some (earlier_table ++ [scenario_rule]))
              scenario_batch)) ∧
    (returned_count (filter_pckts_cb (some (earlier_table ++ [scenario_rule])) scenario_batch)
        = some 0
      → returned_count (filter_pckts_cb
          (some (earlier_table ++ dont_drop_rule :: [scenario_rule])) scenario_batch)
          = some 0)) :=
  ⟨by decide, List.perm_append_comm, (List.reverse_perm _).symm, by decide,
    returned_count_order_independent (earlier_table ++ [scenario_rule])
      (scenario_rule :: earlier_table) scenario_batch scenario_batch.reverse
      earlier_table [scenario_rule] dont_drop_rule (by decide) List.perm_append_comm
      (List.reverse_perm _).symm rfl (by decide)⟩

/-! ## Lifetime of the tables -/

theorem filter_set_heap_ok (publishes : Bool) (h : table_heap) (hok : table_heap_ok h) :
    table_heap_ok (filter_set_heap publishes h) := by
  obtain ⟨hslot, hnd, hlt⟩ := hok
  cases publishes with
  | false => exact ⟨hslot, hnd, hlt⟩
  | true =>
    cases hs : h.filter_rules with
    | none =>
      simp only [filter_set_heap, swap_table, free_table, hs, if_true]
      refine ⟨?_, hnd, ?_⟩
      · intro t ht
        simp only [Option.some.injEq] at ht
        subst ht
        exact ⟨fun hmem => absurd (hlt _ hmem) (lt_irrefl _), Nat.lt_succ_self _⟩
      · intro t ht
        exact Nat.lt_succ_of_lt (hlt t ht)
    | some old =>
      have hold := hslot old hs
      simp only [filter_set_heap, swap_table, free_table, hs, if_true]
      refine ⟨?_, ?_, ?_⟩
      · intro t ht
        simp only [Option.some.injEq] at ht
        subst ht
        refine ⟨?_, Nat.lt_succ_self _⟩
        intro hmem
        rcases List.mem_append.mp hmem with hm | hm
        · exact absurd (hlt _ hm) (lt_irrefl _)
        · simp only [List.mem_singleton] at hm
          exact absurd hold.2 (by omega)
      · rw [List.nodup_append]
        refine ⟨hnd, List.nodup_singleton _, ?_⟩
        intro x hx hx1
        simp only [List.mem_singleton] at hx1
        subst hx1
        exact hold.1 hx
      · intro t ht
        rcases List.mem_append.mp ht with hm | hm
        · exact Nat.lt_succ_of_lt (hlt t hm)
        · simp only [List.mem_singleton] at hm
          subst hm
          exact Nat.lt_succ_of_lt hold.2

/-- With `filter_set` alone the slot never points to a freed table and no table is
freed twice. -/
theorem filter_set_heap_run_ok :
    ∀ (flags : List Bool) (h : table_heap), table_heap_ok h →
      table_heap_ok (table_run (flags.map table_op.set) h) := by
  intro flags
  induction flags with
  | nil => intro h hok; exact hok
  | cons b rest ih =>
    intro h hok
    exact ih _ (filter_set_heap_ok b h hok)

/-- C11: `filter_remove_callback` frees the table the slot points to and leaves the
slot pointing to it.  After one publish and one `filter_remove_callback` the slot
holds table 0, which is freed; a following publish, or a second
`filter_remove_callback`, frees table 0 a second time. -/
theorem remove_callback_leaves_freed_table :
    table_run [table_op.set true, table_op.remove] initial_table_heap
      = { filter_rules := some 0, built := 1, freed := [0] } ∧
    table_run [table_op.set true, table_op.remove, table_op.set true] initial_table_heap
      = { filter_rules := some 1, built := 2, freed := [0, 0] } ∧
    table_run [table_op.set true, table_op.remove, table_op.remove] initial_table_heap
      = { filter_rules := some 0, built := 1, freed := [0, 0] } ∧
    ¬ table_heap_ok (table_run [table_op.set true, table_op.remove] initial_table_heap) := by
  refine ⟨by decide, by decide, by decide, ?_⟩
  intro hok
  have h := hok.1 0 (by decide)
  exact h.1 (by decide)

/-! ## Control channel: stop -/

theorem filter_srv_stop_eq (w : srv_world) : filter_srv_stop w = some (stopped w) := by
  unfold filter_srv_stop resize_recvbuf stopped
  by_cases hs : w.filter_srv.sock ≥ 0 <;> by_cases hc : w.filter_srv.cli_sock ≥ 0 <;>
    cases hb : w.filter_srv.recvbuf <;> simp [hs, hc, hb]

theorem stopped_stopped (w : srv_world) :
    stopped (stopped w) = stopped w := by
  by_cases hs : w.filter_srv.sock ≥ 0 <;> by_cases hc : w.filter_srv.cli_sock ≥ 0 <;>
    simp [stopped, hs, hc]

/-- C15: from every state in which the listening socket is -1 or a descriptor, the
first call of `filter_srv_stop` shuts down and closes the listening socket when it
is a descriptor, closes `cli_sock` when it is not negative, frees the receive
buffer when there is one, and leaves `enabled = 0`, the listening socket -1 and
the buffer `NULL` with size 0; a second call leaves the state and the logs of
`shutdown`, `close` and `free` as the first call left them. -/
theorem filter_srv_stop_idempotent (w : srv_world) (h : -1 ≤ w.filter_srv.sock) :
    ∃ w1, filter_srv_stop w = some w1 ∧ filter_srv_stop w1 = some w1 ∧
      w1.filter_srv.enabled = 0 ∧ w1.filter_srv.sock = -1 ∧
      w1.filter_srv.recvbuf = none ∧ w1.filter_srv.recvbuf_size = 0 ∧
      w1.shut = w.shut ++ (if w.filter_srv.sock ≥ 0 then [w.filter_srv.sock] else []) ∧
      w1.closed = (w.closed ++ (if w.filter_srv.sock ≥ 0 then [w.filter_srv.sock] else []))
        ++ (if w.filter_srv.cli_sock ≥ 0 then [w.filter_srv.cli_sock] else []) ∧
      w1.freed = w.freed ++ (match w.filter_srv.recvbuf with
        | none => []
        | some buf => [buf]) ∧
      w1.opened = w.opened := by
  refine ⟨stopped w, filter_srv_stop_eq w, ?_, rfl, ?_, rfl, rfl, rfl, rfl, rfl, rfl⟩
  · rw [filter_srv_stop_eq, stopped_stopped]
  · by_cases hs : w.filter_srv.sock ≥ 0
    · simp [stopped, hs]
    · simp only [stopped, hs, if_false]
      omega

/-- Instance of C15: a channel that listens on descriptor 3 and holds a receive
buffer of two bytes.  The first call shuts down and closes descriptor 3 and frees
the buffer; the second call adds nothing to the logs. -/
theorem filter_srv_stop_idempotent_witness :
    (-1 : Int) ≤ listening_world.filter_srv.sock ∧
    filter_srv_stop listening_world
      = some { filter_srv := ⟨-1, -1, 5000, 0, 0, none⟩,
               opened := [3], shut := [3], closed := [3], freed := [[0, 0]] } ∧
    filter_srv_stop { filter_srv := ⟨-1, -1, 5000, 0, 0, none⟩,
                      opened := [3], shut := [3], closed := [3], freed := [[0, 0]] }
      = some { filter_srv := ⟨-1, -1, 5000, 0, 0, none⟩,
               opened := [3], shut := [3], closed := [3], freed := [[0, 0]] } ∧
    ∃ w1, filter_srv_stop listening_world = some w1 ∧ filter_srv_stop w1 = some w1 ∧
      w1.filter_srv.enabled = 0 ∧ w1.filter_srv.sock = -1 ∧
      w1.filter_srv.recvbuf = none ∧ w1.filter_srv.recvbuf_size = 0 ∧
      w1.shut = listening_world.shut
        ++ (if listening_world.filter_srv.sock ≥ 0 then [listening_world.filter_srv.sock]
            else []) ∧
      w1.closed = (listening_world.closed
        ++ (if listening_world.filter_srv.sock ≥ 0 then [listening_world.filter_srv.sock]
            else []))
        ++ (if listening_world.filter_srv.cli_sock ≥ 0
            then [listening_world.filter_srv.cli_sock] else []) ∧
      w1.freed = listening_world.freed ++ (match listening_world.filter_srv.recvbuf with
        | none => []
        | some buf => [buf]) ∧
      w1.opened = listening_world.opened :=
  ⟨by decide, by decide, by decide, filter_srv_stop_idempotent listening_world (by decide)⟩

/-- C16: `filter_srv_stop` closes descriptor 0, which the channel never opened, and
does not close an accepted connection.  The field `cli_sock` is 0 from the static
initialiser and is assigned nowhere but in `filter_srv_stop`.  When `bind` fails
after `socket` returned 3, `filter_conn_init` closes 3 and 0.  After a start on
descriptor 3 and an accepted connection on descriptor 4, `filter_srv_stop` closes 3
and 0, and not 4. -/
theorem filter_srv_stop_closes_descriptor_zero :
    filter_conn_init 5000 ⟨3, -1, 0, 0, 0⟩ initial_srv_world
      = some (-1, { filter_srv := ⟨-1, -1, 5000, 0, 0, none⟩,
                    opened := [3], shut := [3], closed := [3, 0], freed := [] }) ∧
    filter_srv_run 5000 ⟨3, 0, 0, 0, 0⟩ initial_srv_world
      = some (0, { filter_srv := ⟨3, 0, 5000, 1, 0, none⟩,
                   opened := [3], shut := [], closed := [], freed := [] }) ∧
    accept_connection 4 { filter_srv := ⟨3, 0, 5000, 1, 0, none⟩,
                          opened := [3], shut := [], closed := [], freed := [] }
      = ({ filter_srv := ⟨3, 0, 5000, 1, 0, none⟩,
           opened := [3, 4], shut := [], closed := [], freed := [] }, some 4) ∧
    filter_srv_stop { filter_srv := ⟨3, 0, 5000, 1, 0, none⟩,
                      opened := [3, 4], shut := [], closed := [], freed := [] }
      = some { filter_srv := ⟨-1, -1, 5000, 0, 0, none⟩,
               opened := [3, 4], shut := [3], closed := [3, 0], freed := [] } := by
  decide

/-! ## Receive loop -/

theorem store_at_length (buf bytes : List Nat) (off : Nat)
    (h : off + bytes.length ≤ buf.length) :
    (store_at buf off bytes).length = buf.length := by
  simp only [store_at, List.length_append, List.length_take, List.length_drop]
  omega

theorem store_at_take (buf bytes : List Nat) (off : Nat) (h : off ≤ buf.length) :
    (store_at buf off bytes).take (off + bytes.length) = buf.take off ++ bytes := by
  have hlen : (buf.take off ++ bytes).length = off + bytes.length := by
    simp only [List.length_append, List.length_take]
    omega
  unfold store_at
  rw [← hlen, List.take_left']
  rfl

theorem size_t_of_small (x : Int) (h0 : 0 ≤ x) (h1 : x ≤ 4095) :
    (size_t_of x : Int) = x := by
  unfold size_t_of
  omega

theorem recv_inv_post (s : recv_state) (h : recv_inv s) : recv_post s := by
  obtain ⟨h0, h1, h2, _, h4, h5⟩ := h
  exact ⟨h4, h0, by omega, h5, Or.inr ⟨h2, h1⟩⟩

theorem recv_loop_inv (recv : Nat → Nat → recv_result) (hc : recv_contract recv) :
    ∀ (fuel : Nat) (s : recv_state), recv_inv s → s.remain < fuel →
      ∃ s1, recv_loop recv 4096 fuel s = some s1 ∧ recv_post s1 := by
  intro fuel
  induction fuel with
  | zero =>
    intro s hinv hf
    have := hinv.1
    omega
  | succ fuel ih =>
    intro s hinv hf
    obtain ⟨h0, h1, h2, h3, h4, h5⟩ := hinv
    simp only [recv_loop]
    cases hr : recv s.calls (size_t_of s.remain) with
    | failed =>
      exact ⟨_, rfl, h4, h0, by simp only; omega, h5, Or.inl rfl⟩
    | got bytes =>
      simp only
      by_cases hz : bytes.length = 0
      · simp only [hz, if_true]
        exact ⟨_, rfl, h4, h0, by simp only; omega, h5, Or.inr ⟨h2, h1⟩⟩
      · simp only [hz, if_false]
        have hle := hc _ _ _ hr
        have hsz := size_t_of_small s.remain h0 (by omega)
        have hle1 : (bytes.length : Int) ≤ s.remain := by omega
        have hoff : s.pbuf + bytes.length ≤ s.recvbuf.length := by omega
        have hinv1 : recv_inv
            { total := s.total + bytes.length, remain := s.remain - bytes.length,
              pbuf := s.pbuf + bytes.length, recvbuf := store_at s.recvbuf s.pbuf bytes,
              calls := s.calls + 1, received := s.received ++ bytes } := by
          refine ⟨by simp only; omega, by simp only; omega, ?_, ?_, ?_, ?_⟩
          · simp only [List.length_append]; push_cast; omega
          · simp only [List.length_append]; omega
          · simp only
            rw [store_at_length _ _ _ hoff]
            exact h4
          · simp only [List.length_append]
            rw [← h3, store_at_take _ _ _ (by omega), h3, h5]
        have hlt : s.total + (bytes.length : Int) < 4096 := by omega
        simp only [hlt, if_true]
        exact ih _ hinv1 (by simp only; omega)

theorem recv_start_inv : recv_inv (recv_start (List.replicate 4096 0)) := by
  refine ⟨by decide, by decide, rfl, rfl, ?_, rfl⟩
  simp only [recv_start, List.length_replicate]

theorem resize_recvbuf_pos (size : Nat) (hpos : size ≠ 0) (w : srv_world)
    (h : recvbuf_consistent w) :
    ∃ srv1, resize_recvbuf size w = some srv1 ∧
      srv1.filter_srv.recvbuf = some (List.replicate size 0) ∧
      srv1.shut = w.shut ∧ srv1.closed = w.closed ∧ srv1.freed = w.freed := by
  unfold recvbuf_consistent at h
  refine ⟨{ w with filter_srv := { w.filter_srv with
              recvbuf_size := size, recvbuf := some (List.replicate size 0) } },
    ?_, rfl, rfl, rfl, rfl⟩
  by_cases hsz : w.filter_srv.recvbuf_size = size
  · cases hb : w.filter_srv.recvbuf with
    | none => rw [hb] at h; have := h.mp rfl; omega
    | some buf => simp [resize_recvbuf, hsz, hb, hpos]
  · simp [resize_recvbuf, hsz, hpos]

/-- The receive loop needs no more than 4096 rounds, whatever `recv` returns. -/
theorem recv_loop_returns (recv : Nat → Nat → recv_result) :
    ∀ (fuel : Nat) (s : recv_state), 1 ≤ fuel → 4096 - s.total ≤ fuel →
      ∃ s1, recv_loop recv 4096 fuel s = some s1 := by
  intro fuel
  induction fuel with
  | zero => intro s h1 _; omega
  | succ fuel ih =>
    intro s _ hf
    simp only [recv_loop]
    cases recv s.calls (size_t_of s.remain) with
    | failed => exact ⟨_, rfl⟩
    | got bytes =>
      simp only
      by_cases hz : bytes.length = 0
      · simp only [hz, if_true]
        exact ⟨_, rfl⟩
      · simp only [hz, if_false]
        by_cases hlt : s.total + (bytes.length : Int) < 4096
        · simp only [hlt, if_true]
          exact ih _ (by omega) (by simp only; omega)
        · simp only [hlt, if_false]
          exact ⟨_, rfl⟩

theorem two_byte_recv_contract : recv_contract two_byte_recv := by
  intro k len bytes h
  unfold two_byte_recv at h
  split_ifs at h with h1 h2 <;> simp only [recv_result.got.injEq] at h <;> subst h
  · simpa using h1.2
  · simpa using h2.2
  · simp

/-- C17: with a `recv` that never returns more than it is asked for, the receive
loop of `filter_recvd_processing` ends within 4096 rounds; when it is left the
buffer still has its 4096 bytes and starts with the bytes received, these are at
most 4095 and add up to 4095 with `remain`, which is not negative, and `total` is
-1 (receive error) or the number of bytes received with `total + remain = 4095`.
Without a receive error, `filter_set` is called with the buffer and a size equal to
the number of bytes received, so that its payload is the bytes received, in
order. -/
theorem recv_loop_within_buffer (env : ctl_env) (w : ctl_world)
    (hc : recv_contract env.recv) (hb : recvbuf_consistent w.srv) :
    ∃ s srv1, resize_recvbuf 4096 w.srv = some srv1 ∧
      recv_loop env.recv 4096 4096 (recv_start (List.replicate 4096 0)) = some s ∧
      recv_post s ∧ s.received.length ≤ 4095 ∧
      (s.total ≠ -1 →
        uint16_of s.total = s.received.length ∧
        s.recvbuf.take (uint16_of s.total) = s.received ∧
        receive_and_set env w
          = (filter_set env w.rules s.recvbuf s.received.length).map (fun rules1 =>
              { srv := { srv1 with
                  filter_srv := { srv1.filter_srv with recvbuf := some s.recvbuf } },
                rules := rules1,
                filter_set_calls := w.filter_set_calls ++ [(s.recvbuf, s.received.length)] })) := by
  obtain ⟨srv1, hres, hbuf, _, _, _⟩ := resize_recvbuf_pos 4096 (by decide) w.srv hb
  obtain ⟨s, hloop, hpost⟩ :=
    recv_loop_inv env.recv hc 4096 (recv_start (List.replicate 4096 0)) recv_start_inv
      (by decide)
  have hpost1 := hpost
  obtain ⟨_, h0, hsum, htake, htot⟩ := hpost1
  refine ⟨s, srv1, hres, hloop, hpost, by omega, ?_⟩
  intro hne
  have htotal : s.total = s.received.length := by
    rcases htot with h | h
    · exact absurd h hne
    · exact h.1
  have hu : uint16_of s.total = s.received.length := by
    unfold uint16_of
    omega
  refine ⟨hu, by rw [hu]; exact htake, ?_⟩
  unfold receive_and_set
  rw [hres]
  simp only [hbuf, hloop, hne, if_false, hu]
  cases filter_set env w.rules s.recvbuf s.received.length <;> rfl

/-- Instance of C17: the connection that delivers "[]" in two calls; the loop is
left with `total = 2`, `remain = 4093` and the two bytes received. -/
theorem recv_loop_within_buffer_witness :
    recv_contract (ref_env two_byte_recv).recv ∧
    recvbuf_consistent running_ctl_world.srv ∧
    (recv_loop two_byte_recv 4096 4096 (recv_start (List.replicate 4096 0))).map
        (fun s => (s.total, s.remain, s.received)) = some (2, 4093, [91, 93]) ∧
    ∃ s srv1, resize_recvbuf 4096 running_ctl_world.srv = some srv1 ∧
      recv_loop (ref_env two_byte_recv).recv 4096 4096 (recv_start (List.replicate 4096 0))
        = some s ∧
      recv_post s ∧ s.received.length ≤ 4095 ∧
      (s.total ≠ -1 →
        uint16_of s.total = s.received.length ∧
        s.recvbuf.take (uint16_of s.total) = s.received ∧
        receive_and_set (ref_env two_byte_recv) running_ctl_world
          = (filter_set (ref_env two_byte_recv) running_ctl_world.rules s.recvbuf
              s.received.length).map (fun rules1 =>
              { srv := { srv1 with
                  filter_srv := { srv1.filter_srv with recvbuf := some s.recvbuf } },
                rules := rules1,
                filter_set_calls := running_ctl_world.filter_set_calls
                  ++ [(s.recvbuf, s.received.length)] })) :=
  ⟨two_byte_recv_contract, by decide, by rfl,
    recv_loop_within_buffer (ref_env two_byte_recv) running_ctl_world
      two_byte_recv_contract (by decide)⟩

/-! ## Payloads that are not applied -/

theorem json_array_size_not_array (j : json_t) (h : json_is_array j = false) :
    json_array_size j = 0 := by
  cases j <;> simp_all [json_array_size, json_array_items, json_is_array]

/-- The receive loop leaves `total = -1` only when its last call of `recv`
returned -1. -/
theorem recv_loop_error_is_failed_recv (recv : Nat → Nat → recv_result) :
    ∀ (fuel : Nat) (s s1 : recv_state), 0 ≤ s.total →
      recv_loop recv 4096 fuel s = some s1 → s1.total = -1 →
      recv (s1.calls - 1) (size_t_of s1.remain) = recv_result.failed := by
  intro fuel
  induction fuel with
  | zero => intro s s1 _ h; simp [recv_loop] at h
  | succ fuel ih =>
    intro s s1 h0 h herr
    simp only [recv_loop] at h
    cases hr : recv s.calls (size_t_of s.remain) with
    | failed =>
      simp only [hr, Option.some.injEq] at h
      subst h
      simpa using hr
    | got bytes =>
      simp only [hr] at h
      by_cases hz : bytes.length = 0
      · simp only [hz, if_true, Option.some.injEq] at h
        subst h
        simp only at herr
        omega
      · simp only [hz, if_false] at h
        by_cases hlt : s.total + (bytes.length : Int) < 4096
        · simp only [hlt, if_true] at h
          exact ih _ s1 (by simp only; omega) h herr
        · simp only [hlt, if_false, Option.some.injEq] at h
          subst h
          simp only at herr
          omega

theorem delivers_then_fails_length (recv : Nat → Nat → recv_result) :
    ∀ (chunks : List (List Nat)) (k : Nat) (total remain : Int),
      delivers_then_fails recv chunks k total remain → 0 ≤ total →
      (chunks.length : Int) + total ≤ 4095 ∨ chunks = [] := by
  intro chunks
  induction chunks with
  | nil => intro k total remain _ _; exact Or.inr rfl
  | cons chunk rest ih =>
    intro k total remain h h0
    obtain ⟨hne, _, hlt, hrest⟩ := h
    have hpos : 0 < chunk.length := List.length_pos.mpr hne
    left
    rcases ih (k + 1) _ _ hrest (by omega) with hl | hl
    · simp only [List.length_cons]
      push_cast
      omega
    · subst hl
      simp only [List.length_cons, List.length_nil]
      push_cast
      omega

/-- When a receive error occurs, the receive loop is left with `total = -1`. -/
theorem recv_loop_fails (recv : Nat → Nat → recv_result) :
    ∀ (chunks : List (List Nat)) (fuel : Nat) (s : recv_state),
      delivers_then_fails recv chunks s.calls s.total s.remain → chunks.length < fuel →
      ∃ s1, recv_loop recv 4096 fuel s = some s1 ∧ s1.total = -1 := by
  intro chunks
  induction chunks with
  | nil =>
    intro fuel s h hf
    cases fuel with
    | zero => simp at hf
    | succ fuel =>
      have hr : recv s.calls (size_t_of s.remain) = recv_result.failed := h
      exact ⟨{ s with total := -1, calls := s.calls + 1 }, by simp only [recv_loop, hr], rfl⟩
  | cons chunk rest ih =>
    intro fuel s h hf
    cases fuel with
    | zero => simp at hf
    | succ fuel =>
      obtain ⟨hne, hr, hlt, hrest⟩ := h
      have hz : ¬ chunk.length = 0 := by
        intro hz
        exact hne (List.length_eq_zero.mp hz)
      simp only [recv_loop, hr, hz, if_false, hlt, if_true]
      exact ih fuel _ hrest (by simp only [List.length_cons] at hf; omega)

/-- C12: a payload that `json_loadb` rejects, or that decodes to a value that is
not an array, leaves the table state as it was after `filter_set`; and when a
receive error occurs on the connection, after any number of chunks received,
`filter_recvd_processing` returns without a call of `filter_set`, the table state
being as before. -/
theorem undecodable_payload_keeps_table (env : ctl_env) (st : rules_state)
    (rules : List Nat) (rules_size : Nat) (w : ctl_world) (sock : Int)
    (chunks : List (List Nat)) :
    ((env.json_loadb (rules.take rules_size) = none
        ∨ ∃ j, env.json_loadb (rules.take rules_size) = some j ∧ json_is_array j = false) →
      filter_set env st rules rules_size = some st) ∧
    (recvbuf_consistent w.srv → delivers_then_fails env.recv chunks 0 0 4095 →
      ∃ w1, filter_recvd_processing env sock w = some w1 ∧ w1.rules = w.rules ∧
        w1.filter_set_calls = w.filter_set_calls) := by
  constructor
  · intro hdec
    rcases hdec with h | ⟨j, hj, harr⟩
    · simp [filter_set, h]
    · have hsz := json_array_size_not_array j harr
      simp [filter_set, hj, set_filter_rules, hsz]
  · intro hb hfail
    obtain ⟨srv1, hres, hbuf, _, _, _⟩ := resize_recvbuf_pos 4096 (by decide) w.srv hb
    have hlen : chunks.length < 4096 := by
      rcases delivers_then_fails_length env.recv chunks 0 0 4095 hfail (le_refl _) with h | h
      · omega
      · subst h; decide
    obtain ⟨s, hloop, herr⟩ :=
      recv_loop_fails env.recv chunks 4096 (recv_start (List.replicate 4096 0)) hfail hlen
    have hrs : receive_and_set env w
        = some { w with srv := { srv1 with
            filter_srv := { srv1.filter_srv with recvbuf := some s.recvbuf } } } := by
      unfold receive_and_set
      rw [hres]
      simp only [hbuf, hloop, herr, if_true]
    unfold filter_recvd_processing
    by_cases hen : w.srv.filter_srv.enabled ≠ 0
    · rw [if_pos hen, hrs]
      simp [resize_recvbuf]
    · rw [if_neg hen]
      simp [resize_recvbuf]

theorem broken_recv_fails : delivers_then_fails broken_recv [[91]] 0 0 4095 :=
  ⟨by decide, by decide, by decide, by rfl⟩

/-- Instance of C12: the payload "{", which `json_loadb` rejects, and the payload
"7", which decodes to a number, each given to `filter_set` with a table published;
and a connection that delivers one byte and then fails. -/
theorem undecodable_payload_keeps_table_witness :
    (ref_env broken_recv).json_loadb (truncated_payload.take 1) = none ∧
    (∃ j, (ref_env broken_recv).json_loadb (List.take 1 [55]) = some j
      ∧ json_is_array j = false) ∧
    recvbuf_consistent running_ctl_world.srv ∧
    delivers_then_fails (ref_env broken_recv).recv [[91]] 0 0 4095 ∧
    filter_set (ref_env broken_recv) ⟨some earlier_table, []⟩ truncated_payload 1
      = some ⟨some earlier_table, []⟩ ∧
    filter_set (ref_env broken_recv) ⟨some earlier_table, []⟩ [55] 1
      = some ⟨some earlier_table, []⟩ ∧
    (∃ w1, filter_recvd_processing (ref_env broken_recv) 4 running_ctl_world = some w1 ∧
      w1.rules = running_ctl_world.rules ∧
      w1.filter_set_calls = running_ctl_world.filter_set_calls) :=
  ⟨rfl, ⟨json_t.integer 7, rfl, rfl⟩, by decide, broken_recv_fails,
    (undecodable_payload_keeps_table (ref_env broken_recv) ⟨some earlier_table, []⟩
      truncated_payload 1 running_ctl_world 4 [[91]]).1 (Or.inl rfl),
    (undecodable_payload_keeps_table (ref_env broken_recv) ⟨some earlier_table, []⟩
      [55] 1 running_ctl_world 4 [[91]]).1 (Or.inr ⟨json_t.integer 7, rfl, rfl⟩),
    (undecodable_payload_keeps_table (ref_env broken_recv) ⟨some earlier_table, []⟩
      [55] 1 running_ctl_world 4 [[91]]).2 (by decide) broken_recv_fails⟩

end L2wfd
